import Mathlib

/-!
# Verification of the `lint_verweise` cross-reference validator

A shallow embedding of `src/scripts/lint_verweise.py`: XML documents become a
tree datatype, Python dictionaries and sets become association lists and lists
used only through membership, and every validation routine becomes a pure Lean
function that threads the `errors` accumulator exactly as the script appends to
its shared `errors` list.  Python attribute lookup (`elem.get`) yields
`Option String`; Python truthiness on such values (`if ref:`) is the `truthy`
predicate below (false on `None` and on the empty string).
-/

namespace LintVerweise

/-- An XML element: tag, attribute list, source line number (0 models an absent
`sourceline`, which the script renders as `Unknown`), children. -/
inductive XML where
  | elem (tag : String) (attrs : List (String × String)) (sourceline : Nat) (children : List XML)

def XML.tag : XML → String
  | .elem t _ _ _ => t

def XML.attrs : XML → List (String × String)
  | .elem _ a _ _ => a

def XML.sourceline : XML → Nat
  | .elem _ _ n _ => n

def XML.children : XML → List XML
  | .elem _ _ _ cs => cs

/-- Model of `elem.get(name)`: the attribute's value, or `none` when absent. -/
def XML.get (x : XML) (name : String) : Option String :=
  x.attrs.lookup name

/-- Python truthiness of an attribute value: `None` and `""` are falsy. -/
def truthy : Option String → Bool
  | none => false
  | some s => !(s == "")

mutual

/-- Model of `elem.iter()`: the element followed by all descendants, document order. -/
def XML.preorder : XML → List XML
  | .elem t a n cs => XML.elem t a n cs :: preorderList cs

def preorderList : List XML → List XML
  | [] => []
  | c :: cs => c.preorder ++ preorderList cs

end

/-- All strict descendants in document order. -/
def XML.descendants : XML → List XML
  | .elem _ _ _ cs => preorderList cs

/-- Model of `root.findall(".//t")`: every descendant with the given tag, document order. -/
def XML.findall (x : XML) (t : String) : List XML :=
  x.descendants.filter (fun e => e.tag = t)

/-- Model of `get_line_number`: the source line, or `none` (printed `Unknown`) when the
stored line number is falsy. -/
def get_line_number (e : XML) : Option Nat :=
  if e.sourceline = 0 then none else some e.sourceline

mutual

def XML.deq : (a b : XML) → Decidable (a = b)
  | .elem t a n cs, .elem t' a' n' cs' =>
    if h1 : t = t' then
      if h2 : a = a' then
        if h3 : n = n' then
          match deqList cs cs' with
          | isTrue h4 => isTrue (by rw [h1, h2, h3, h4])
          | isFalse h4 => isFalse (by intro h; injection h; contradiction)
        else isFalse (by intro h; injection h; contradiction)
      else isFalse (by intro h; injection h; contradiction)
    else isFalse (by intro h; injection h; contradiction)

def deqList : (a b : List XML) → Decidable (a = b)
  | [], [] => isTrue rfl
  | [], _ :: _ => isFalse (by intro h; cases h)
  | _ :: _, [] => isFalse (by intro h; cases h)
  | x :: xs, y :: ys =>
    match XML.deq x y, deqList xs ys with
    | isTrue h1, isTrue h2 => isTrue (by rw [h1, h2])
    | isFalse h1, _ => isFalse (by intro h; injection h; contradiction)
    | _, isFalse h2 => isFalse (by intro h; injection h; contradiction)

end

instance : DecidableEq XML := XML.deq

/-!
## The letter → page → line location map

`letter_pages[letter][page] = set(line)` from the script becomes a nested
association list.  The Python `defaultdict(lambda: defaultdict(set))` creates a
key exactly when a line is recorded under it, and the validation code always
guards dictionary access by a preceding membership test, so association lists
with first-match lookup are an exact model of the dictionaries in use.
-/

/-- A Python `set` of line indices, as a duplicate-free-by-construction list. -/
abbrev LineSet := List String

/-- Model of `page -> set(line)`. -/
abbrev PageMap := List (String × LineSet)

/-- Model of `letter -> page -> set(line)`. -/
abbrev LetterMap := List (String × PageMap)

/-- Model of `s.add(ln)` on a Python set. -/
def addLine (s : LineSet) (ln : String) : LineSet :=
  if ln ∈ s then s else s ++ [ln]

/-- Model of `s.update(t)` on Python sets. -/
def lineUnion (s t : LineSet) : LineSet :=
  t.foldl addLine s

/-- Model of `pm[p].add(ln)` with `defaultdict(set)` semantics. -/
def pmAddLine (pm : PageMap) (p ln : String) : PageMap :=
  match pm with
  | [] => [(p, [ln])]
  | (q, s) :: rest =>
    if q = p then (q, addLine s ln) :: rest else (q, s) :: pmAddLine rest p ln

/-- Model of `pm[p].update(ls)` with `defaultdict(set)` semantics. -/
def pmUnionAt (pm : PageMap) (p : String) (ls : LineSet) : PageMap :=
  match pm with
  | [] => [(p, lineUnion [] ls)]
  | (q, s) :: rest =>
    if q = p then (q, lineUnion s ls) :: rest else (q, s) :: pmUnionAt rest p ls

/-- Model of `m[l][p].add(ln)` with nested `defaultdict` semantics. -/
def lmAddLine (m : LetterMap) (l p ln : String) : LetterMap :=
  match m with
  | [] => [(l, pmAddLine [] p ln)]
  | (k, pm) :: rest =>
    if k = l then (k, pmAddLine pm p ln) :: rest else (k, pm) :: lmAddLine rest l p ln

/-- Model of `m[l][p].update(ls)` with nested `defaultdict` semantics. -/
def lmUnionAt (m : LetterMap) (l p : String) (ls : LineSet) : LetterMap :=
  match m with
  | [] => [(l, pmUnionAt [] p ls)]
  | (k, pm) :: rest =>
    if k = l then (k, pmUnionAt pm p ls) :: rest else (k, pm) :: lmUnionAt rest l p ls

/-- First-match lookup in a page map (Python dictionaries have unique keys, so
first-match lookup models dictionary access exactly). -/
def pmLookup (pm : PageMap) (q : String) : Option LineSet :=
  match pm with
  | [] => none
  | (k, s) :: rest => if k = q then some s else pmLookup rest q

/-- First-match lookup in a letter map. -/
def lmLookup (m : LetterMap) (q : String) : Option PageMap :=
  match m with
  | [] => none
  | (k, pm) :: rest => if k = q then some pm else lmLookup rest q

/-- Model of `l in letter_pages` (dictionary key test). -/
def hasLetter (m : LetterMap) (l : String) : Bool :=
  (lmLookup m l).isSome

/-- Model of `letter_pages[l]`, defined on keys that are present. -/
def pagesOf (m : LetterMap) (l : String) : PageMap :=
  (lmLookup m l).getD []

/-- Model of `p in letter_pages[l]`. -/
def hasPage (m : LetterMap) (l p : String) : Bool :=
  (pmLookup (pagesOf m l) p).isSome

/-- Model of `letter_pages[l][p]`, defined on keys that are present. -/
def linesOf (m : LetterMap) (l p : String) : LineSet :=
  (pmLookup (pagesOf m l) p).getD []

/-- Model of `ln in letter_pages[l][p]`. -/
def hasLine (m : LetterMap) (l p ln : String) : Bool :=
  decide (ln ∈ linesOf m l p)

/-- Key test against a possibly absent attribute value.  The dictionary keys
are always truthy strings (the builders below record a triple only when letter,
page and line are all truthy), so a `None` lookup never succeeds. -/
def hasLetterO (m : LetterMap) : Option String → Bool
  | none => false
  | some l => hasLetter m l

def hasPageO (m : LetterMap) (l : String) : Option String → Bool
  | none => false
  | some p => hasPage m l p

def hasLineO (m : LetterMap) (l p : String) : Option String → Bool
  | none => false
  | some ln => hasLine m l p ln

/-!
## The two location-map builders and their merge
-/

/-- The transient state of `build_letter_page_line_map_brief`. -/
structure BriefScan where
  current_letter : Option String
  current_page : Option String
  map : LetterMap
deriving Repr, DecidableEq

/-- One step of the single-pass scan in `build_letter_page_line_map_brief`:
a `letterText` element sets the current letter (never the page), a `page`
element with a truthy index sets the current page, a `line` element with a
truthy index is recorded when both letter and page are set and truthy. -/
def brief_step (st : BriefScan) (e : XML) : BriefScan :=
  if e.tag = "letterText" then
    { st with current_letter := e.get "letter" }
  else if e.tag = "page" then
    let page_index := e.get "index"
    if truthy page_index then { st with current_page := page_index } else st
  else if e.tag = "line" then
    let line_index := e.get "index"
    if truthy st.current_letter && truthy st.current_page && truthy line_index then
      let m := lmAddLine st.map (st.current_letter.getD "") (st.current_page.getD "")
        (line_index.getD "")
      { st with map := m }
    else st
  else st

/-- The `for elem in doc_elem.iter()` loop of the transcription builder. -/
def scan_brief (xs : List XML) (st : BriefScan) : BriefScan :=
  xs.foldl brief_step st

/-- Model of `build_letter_page_line_map_brief`: scan `.//document` (or the root when
absent) in document order. -/
def build_letter_page_line_map_brief (doc_root : XML) : LetterMap :=
  let doc_elem := (doc_root.findall "document").head?.getD doc_root
  (scan_brief doc_elem.preorder ⟨none, none, []⟩).map

/-- One step of the per-block scan in `build_letter_page_line_map_trad`; the
block's letter identifier is fixed, the state is the current page and the map. -/
def trad_step (letter_id : String) (st : Option String × LetterMap) (e : XML) :
    Option String × LetterMap :=
  if e.tag = "page" then
    let pidx := e.get "index"
    if truthy pidx then (pidx, st.2) else st
  else if e.tag = "line" then
    let lidx := e.get "index"
    if truthy st.1 && truthy lidx then
      (st.1, lmAddLine st.2 letter_id (st.1.getD "") (lidx.getD ""))
    else st
  else st

/-- Model of `build_letter_page_line_map_trad`: per `letterTradition` block (skipped when
its letter attribute is falsy), scan the block's strict descendants — the block
element itself is excluded, matching `if elem is letter_trad: continue`. -/
def build_letter_page_line_map_trad (trad_root : XML) : LetterMap :=
  (trad_root.findall "letterTradition").foldl
    (fun m lt =>
      if truthy (lt.get "letter") then
        (lt.descendants.foldl (trad_step ((lt.get "letter").getD "")) (none, m)).2
      else m)
    []

/-- Model of `merge_page_line_maps`: fold `map_b` into `map_a` by
`map_a[letter][page].update(lines)`. -/
def merge_page_line_maps (map_a map_b : LetterMap) : LetterMap :=
  map_b.foldl
    (fun acc le => le.2.foldl (fun acc2 pe => lmUnionAt acc2 le.1 pe.1 pe.2) acc)
    map_a

/-!
## Violations

Each `errors.append({...})` in the script builds a record from an f-string; the
messages are modelled structurally, one constructor per f-string, carrying
exactly the values the f-string interpolates (`Option String` where the
interpolated Python value can be `None`).
-/

inductive Msg where
  | invalidIntlinkLetter (letter : Option String)
  | intlinkNoPages (letter : String)
  | invalidIntlinkPage (page letter : String)
  | invalidIntlinkLine (line letter page : String)
  | intlinkLineNoPage (line letter : String)
  | kommentarMissingId
  | dupKommentarLocal (id : String)
  | dupKommentarGlobal (id : String)
  | kommentarMissingLemma (id : String)
  | subsectionMissingId
  | dupSubsectionLocal (id : String)
  | dupSubsectionGlobal (id : String)
  | subsectionMissingLemma (id : String)
  | invalidLinkRef (ref : String)
  | invalidLinkSubref (subref : String)
  | invalidSenderRef (ref : String) (letter : Option String)
  | invalidReceiverRef (ref : String) (letter : Option String)
  | invalidLocationRef (ref : String) (letter : Option String)
  | invalidLetterText (letter : String)
  | invalidHandBrief (ref : String) (letter : Option String)
  | invalidEditRef (ref : String) (letter : Option String)
  | invalidLetterTradition (letter : String)
  | invalidAppRef (ref : String) (letter : Option String)
  | invalidHandTrad (ref : String) (letter : Option String)
  | invalidMarginalLetter (letter : Option String)
  | marginalNoPages (letter : Option String)
  | invalidMarginalPage (letter page : Option String)
  | invalidMarginalLine (letter page line : Option String)
deriving Repr, DecidableEq

/-- One collected violation: `{"file": ..., "line": ..., "message": ...}`. -/
structure Violation where
  file : String
  line : Option Nat
  message : Msg
deriving Repr, DecidableEq

/-!
## Reference index sets

The script builds Python sets by comprehension over `findall`; only membership
is ever used, so a list of the gathered values is an exact model (`set`
deduplication is invisible to membership).  The gathered values are
`elem.get(attr)` results, hence `Option String` — a definition element with a
missing attribute really does put `None` into the Python set.
-/

def person_refs (references_xml : XML) : List (Option String) :=
  (references_xml.findall "personDef").map (fun p => p.get "index")

def location_refs (references_xml : XML) : List (Option String) :=
  (references_xml.findall "locationDef").map (fun l => l.get "index")

def hand_refs (references_xml : XML) : List (Option String) :=
  (references_xml.findall "handDef").map (fun h => h.get "index")

def app_refs (references_xml : XML) : List (Option String) :=
  (references_xml.findall "appDef").map (fun a => a.get "index")

def edit_refs (edits_xml : XML) : List (Option String) :=
  (edits_xml.findall "editreason").map (fun e => e.get "index")

def letter_refs (meta_xml : XML) : List (Option String) :=
  (meta_xml.findall "letterDesc").map (fun desc => desc.get "letter")

/-!
## `<intlink>` check
-/

/-- The violations contributed by a single `<intlink>` element in
`validate_intlinks`.  The four-step cascade of the source: mandatory letter,
letter present in the location map, page lookup (or line-without-page), line
lookup. -/
def intlink_check (letter_pages : LetterMap) (letter_refs : List (Option String))
    (file_path : String) (intlink : XML) : List Violation :=
  let line_no := get_line_number intlink
  let letter_id := intlink.get "letter"
  let page_id := intlink.get "page"
  let line_id := intlink.get "line"
  if !truthy letter_id || !(decide (letter_id ∈ letter_refs)) then
    [⟨file_path, line_no, .invalidIntlinkLetter letter_id⟩]
  else
    let l := letter_id.getD ""
    if !hasLetter letter_pages l then
      [⟨file_path, line_no, .intlinkNoPages l⟩]
    else if truthy page_id then
      let p := page_id.getD ""
      if !hasPage letter_pages l p then
        [⟨file_path, line_no, .invalidIntlinkPage p l⟩]
      else if truthy line_id then
        if !hasLine letter_pages l p (line_id.getD "") then
          [⟨file_path, line_no, .invalidIntlinkLine (line_id.getD "") l p⟩]
        else []
      else []
    else
      if truthy line_id then
        [⟨file_path, line_no, .intlinkLineNoPage (line_id.getD "") l⟩]
      else []

/-- Model of `validate_intlinks`: append the violations of every `<intlink>` of the
document, in document order, to the accumulated `errors`. -/
def validate_intlinks (xml_root : XML) (file_path : String) (letter_pages : LetterMap)
    (letter_refs : List (Option String)) (errors : List Violation) : List Violation :=
  (xml_root.findall "intlink").foldl
    (fun errs intlink => errs ++ intlink_check letter_pages letter_refs file_path intlink)
    errors

/-!
## `<kommentar>` / `<subsection>` gathering

`gather_commentaries_and_subsections` contains two textually parallel loops,
one over `.//kommentar` and one over `.//subsection`, differing only in the
message texts and in which local/global identifier sets they touch.  They are
modelled as two instances of one step function, parameterised by the four
message constructors of the corresponding f-strings.
-/

/-- The four messages one gathering loop can emit. -/
structure ItemMsgs where
  missingId : Msg
  dupLocal : String → Msg
  dupGlobal : String → Msg
  missingLemma : String → Msg

def kommentar_msgs : ItemMsgs :=
  ⟨.kommentarMissingId, .dupKommentarLocal, .dupKommentarGlobal, .kommentarMissingLemma⟩

def subsection_msgs : ItemMsgs :=
  ⟨.subsectionMissingId, .dupSubsectionLocal, .dupSubsectionGlobal, .subsectionMissingLemma⟩

/-- The state threaded through one gathering loop: the per-document set, the
global pool, and the shared error list. -/
structure ItemScan where
  local_ids : List String
  global_ids : List String
  errors : List Violation
deriving Repr, DecidableEq

/-- The loop body: a falsy `id` is reported and skipped; otherwise the local
duplicate check runs (adding to the local set only when new), then the global
duplicate check (adding to the global pool only when new), then the `<lemma>`
presence check over the whole subtree (`kom.find(".//lemma")`). -/
def item_step (msgs : ItemMsgs) (file_path : String) (st : ItemScan) (item : XML) : ItemScan :=
  let ln := get_line_number item
  let kid := item.get "id"
  if !truthy kid then
    { st with errors := st.errors ++ [⟨file_path, ln, msgs.missingId⟩] }
  else
    let k := kid.getD ""
    let st1 :=
      if decide (k ∈ st.local_ids) = true then
        { st with errors := st.errors ++ [⟨file_path, ln, msgs.dupLocal k⟩] }
      else { st with local_ids := st.local_ids ++ [k] }
    let st2 :=
      if decide (k ∈ st1.global_ids) = true then
        { st1 with errors := st1.errors ++ [⟨file_path, ln, msgs.dupGlobal k⟩] }
      else { st1 with global_ids := st1.global_ids ++ [k] }
    if (item.findall "lemma").isEmpty then
      { st2 with errors := st2.errors ++ [⟨file_path, ln, msgs.missingLemma k⟩] }
    else st2

/-- The state mutated across register documents: the shared error list and the
two global pools. -/
structure GatherState where
  errors : List Violation
  global_kommentar_ids : List String
  global_subsection_ids : List String
deriving Repr, DecidableEq

/-- Model of `gather_commentaries_and_subsections` for one register document: run the
kommentar loop (fresh local set), then the subsection loop (fresh local set),
each threading the error list and its own global pool. -/
def gather_commentaries_and_subsections (xml_root : XML) (file_path : String)
    (st : GatherState) : GatherState :=
  let ks := (xml_root.findall "kommentar").foldl (item_step kommentar_msgs file_path)
    ⟨[], st.global_kommentar_ids, st.errors⟩
  let ss := (xml_root.findall "subsection").foldl (item_step subsection_msgs file_path)
    ⟨[], st.global_subsection_ids, ks.errors⟩
  ⟨ss.errors, ks.global_ids, ss.global_ids⟩

/-!
## `<link ref= subref=>` check
-/

/-- The violations of one `<link>` element in `validate_links_for_commentary`:
a truthy `ref` must be a kommentar or subsection identifier, a truthy `subref`
must be a subsection identifier. -/
def link_check (kommentar_ids subsection_ids : List String) (file_path : String)
    (link_elem : XML) : List Violation :=
  let ln := get_line_number link_elem
  let refval := link_elem.get "ref"
  let subrefval := link_elem.get "subref"
  (if truthy refval && !(decide ((refval.getD "") ∈ kommentar_ids))
      && !(decide ((refval.getD "") ∈ subsection_ids)) then
    [⟨file_path, ln, .invalidLinkRef (refval.getD "")⟩]
  else [])
  ++
  (if truthy subrefval && !(decide ((subrefval.getD "") ∈ subsection_ids)) then
    [⟨file_path, ln, .invalidLinkSubref (subrefval.getD "")⟩]
  else [])

/-- Model of `validate_links_for_commentary`: append each `<link>`'s violations in
document order. -/
def validate_links_for_commentary (xml_root : XML) (file_path : String)
    (kommentar_ids subsection_ids : List String) (errors : List Violation) :
    List Violation :=
  (xml_root.findall "link").foldl
    (fun errs link_elem => errs ++ link_check kommentar_ids subsection_ids file_path link_elem)
    errors

/-!
## Per-document attribute checks (steps 5–7 and 10 of `validate_references`)
-/

/-- Model of `<sender ref=...>` inside a `letterDesc`: violation iff the ref is truthy
and not a person identifier. -/
def sender_check (person_refs : List (Option String)) (meta_file : String)
    (letter_id : Option String) (sender : XML) : List Violation :=
  let ref := sender.get "ref"
  if truthy ref && !(decide (ref ∈ person_refs)) then
    [⟨meta_file, get_line_number sender, .invalidSenderRef (ref.getD "") letter_id⟩]
  else []

/-- Model of `<receiver ref=...>` inside a `letterDesc`. -/
def receiver_check (person_refs : List (Option String)) (meta_file : String)
    (letter_id : Option String) (receiver : XML) : List Violation :=
  let ref := receiver.get "ref"
  if truthy ref && !(decide (ref ∈ person_refs)) then
    [⟨meta_file, get_line_number receiver, .invalidReceiverRef (ref.getD "") letter_id⟩]
  else []

/-- Step 5, one `letterDesc`: all senders, all receivers, and the first
`location` descendant (`letter.find(".//location")`), each checked only when
its ref is truthy. -/
def letterDesc_check (person_refs location_refs : List (Option String))
    (meta_file : String) (letter : XML) : List Violation :=
  let letter_id := letter.get "letter"
  ((letter.findall "sender").flatMap (sender_check person_refs meta_file letter_id))
  ++ ((letter.findall "receiver").flatMap (receiver_check person_refs meta_file letter_id))
  ++ (match (letter.findall "location").head? with
    | none => []
    | some loc_elem =>
      let r := loc_elem.get "ref"
      if truthy r && !(decide (r ∈ location_refs)) then
        [⟨meta_file, get_line_number loc_elem, .invalidLocationRef (r.getD "") letter_id⟩]
      else [])

/-- Model of `<hand ref=...>` inside a `letterText`. -/
def hand_check_brief (hand_refs : List (Option String)) (briefe_file : String)
    (letter_id : Option String) (hand_elem : XML) : List Violation :=
  let ref := hand_elem.get "ref"
  if truthy ref && !(decide (ref ∈ hand_refs)) then
    [⟨briefe_file, get_line_number hand_elem, .invalidHandBrief (ref.getD "") letter_id⟩]
  else []

/-- Model of `<edit ref=...>` inside a `letterText`. -/
def edit_check (edit_refs : List (Option String)) (briefe_file : String)
    (letter_id : Option String) (edit_elem : XML) : List Violation :=
  let ref := edit_elem.get "ref"
  if truthy ref && !(decide (ref ∈ edit_refs)) then
    [⟨briefe_file, get_line_number edit_elem, .invalidEditRef (ref.getD "") letter_id⟩]
  else []

/-- Step 6, one `letterText`: its own letter attribute (when truthy) against
the letter set, then every `hand` and every `edit` descendant. -/
def letterText_check (letter_refs hand_refs edit_refs : List (Option String))
    (briefe_file : String) (letter_text : XML) : List Violation :=
  let letter_id := letter_text.get "letter"
  (if truthy letter_id && !(decide (letter_id ∈ letter_refs)) then
    [⟨briefe_file, get_line_number letter_text, .invalidLetterText (letter_id.getD "")⟩]
  else [])
  ++ (letter_text.findall "hand").flatMap (hand_check_brief hand_refs briefe_file letter_id)
  ++ (letter_text.findall "edit").flatMap (edit_check edit_refs briefe_file letter_id)

/-- Model of `<app ref=...>` inside a `letterTradition`. -/
def app_check (app_refs : List (Option String)) (traditions_file : String)
    (letter_id : Option String) (app_elem : XML) : List Violation :=
  let ref := app_elem.get "ref"
  if truthy ref && !(decide (ref ∈ app_refs)) then
    [⟨traditions_file, get_line_number app_elem, .invalidAppRef (ref.getD "") letter_id⟩]
  else []

/-- Model of `<hand ref=...>` inside a `letterTradition`. -/
def hand_check_trad (hand_refs : List (Option String)) (traditions_file : String)
    (letter_id : Option String) (hand_elem : XML) : List Violation :=
  let ref := hand_elem.get "ref"
  if truthy ref && !(decide (ref ∈ hand_refs)) then
    [⟨traditions_file, get_line_number hand_elem, .invalidHandTrad (ref.getD "") letter_id⟩]
  else []

/-- Step 7, one `letterTradition`: its own letter attribute (when truthy), then
every `app` and every `hand` descendant. -/
def letterTradition_check (letter_refs app_refs hand_refs : List (Option String))
    (traditions_file : String) (tradition : XML) : List Violation :=
  let letter_id := tradition.get "letter"
  (if truthy letter_id && !(decide (letter_id ∈ letter_refs)) then
    [⟨traditions_file, get_line_number tradition, .invalidLetterTradition (letter_id.getD "")⟩]
  else [])
  ++ (tradition.findall "app").flatMap (app_check app_refs traditions_file letter_id)
  ++ (tradition.findall "hand").flatMap (hand_check_trad hand_refs traditions_file letter_id)

/-- Step 10, one `<marginal letter= page= line=>` element: a three-level
cascade with no truthiness guard on any of the three attributes — the raw
`elem.get` results are tested directly against the letter set and the location
map, so an absent attribute behaves exactly like an unresolvable value. -/
def marginal_check (letter_pages : LetterMap) (letter_refs : List (Option String))
    (marginalien_file : String) (marginal_elem : XML) : List Violation :=
  let letter_id := marginal_elem.get "letter"
  let page_id := marginal_elem.get "page"
  let line_id := marginal_elem.get "line"
  let ln := get_line_number marginal_elem
  if !(decide (letter_id ∈ letter_refs)) then
    [⟨marginalien_file, ln, .invalidMarginalLetter letter_id⟩]
  else if !(hasLetterO letter_pages letter_id) then
    [⟨marginalien_file, ln, .marginalNoPages letter_id⟩]
  else if !(hasPageO letter_pages (letter_id.getD "") page_id) then
    [⟨marginalien_file, ln, .invalidMarginalPage letter_id page_id⟩]
  else if !(hasLineO letter_pages (letter_id.getD "") (page_id.getD "") line_id) then
    [⟨marginalien_file, ln, .invalidMarginalLine letter_id page_id line_id⟩]
  else []

/-!
## The main validator
-/

/-- The six parsed documents, their paths, and the optional register documents
(path, parsed tree) in command-line order. -/
structure ValidatorInput where
  meta_file : String
  references_file : String
  briefe_file : String
  edits_file : String
  traditions_file : String
  marginalien_file : String
  meta_xml : XML
  references_xml : XML
  briefe_xml : XML
  edits_xml : XML
  traditions_xml : XML
  marginalien_xml : XML
  register_trees : List (String × XML)

/-- Model of `validate_references` after parsing: the accumulated violation list, in the
order the script appends (registers gathering, then meta, briefe, traditions
attribute checks, then intlinks in traditions/marginalien/registers, then
marginal anchors, then links in all documents). -/
def validate_references (inp : ValidatorInput) : List Violation :=
  let persons := person_refs inp.references_xml
  let locations := location_refs inp.references_xml
  let hands := hand_refs inp.references_xml
  let apps := app_refs inp.references_xml
  let edits := edit_refs inp.edits_xml
  let letters := letter_refs inp.meta_xml
  let gathered := inp.register_trees.foldl
    (fun st r => gather_commentaries_and_subsections r.2 r.1 st) ⟨[], [], []⟩
  let errors := gathered.errors
  let errors := (inp.meta_xml.findall "letterDesc").foldl
    (fun errs letter => errs ++ letterDesc_check persons locations inp.meta_file letter) errors
  let errors := (inp.briefe_xml.findall "letterText").foldl
    (fun errs lt => errs ++ letterText_check letters hands edits inp.briefe_file lt) errors
  let errors := (inp.traditions_xml.findall "letterTradition").foldl
    (fun errs tr => errs ++ letterTradition_check letters apps hands inp.traditions_file tr) errors
  let letter_pages_brief := build_letter_page_line_map_brief inp.briefe_xml
  let letter_pages_trad := build_letter_page_line_map_trad inp.traditions_xml
  let letter_pages := merge_page_line_maps letter_pages_brief letter_pages_trad
  let errors := validate_intlinks inp.traditions_xml inp.traditions_file letter_pages letters errors
  let errors := validate_intlinks inp.marginalien_xml inp.marginalien_file letter_pages letters errors
  let errors := inp.register_trees.foldl
    (fun errs r => validate_intlinks r.2 r.1 letter_pages letters errs) errors
  let errors := (inp.marginalien_xml.findall "marginal").foldl
    (fun errs m => errs ++ marginal_check letter_pages letters inp.marginalien_file m) errors
  let gk := gathered.global_kommentar_ids
  let gs := gathered.global_subsection_ids
  let errors := validate_links_for_commentary inp.meta_xml inp.meta_file gk gs errors
  let errors := validate_links_for_commentary inp.references_xml inp.references_file gk gs errors
  let errors := validate_links_for_commentary inp.briefe_xml inp.briefe_file gk gs errors
  let errors := validate_links_for_commentary inp.edits_xml inp.edits_file gk gs errors
  let errors := validate_links_for_commentary inp.traditions_xml inp.traditions_file gk gs errors
  let errors := validate_links_for_commentary inp.marginalien_xml inp.marginalien_file gk gs errors
  let errors := inp.register_trees.foldl
    (fun errs r => validate_links_for_commentary r.2 r.1 gk gs errs) errors
  errors

/-!
## Derived notions used by the verification layer
-/

/-- Occurrence-level membership in the list structure of a letter map: some
entry records the triple.  On maps with duplicate-free keys this agrees with
the lookup-based `hasLine`. -/
def occMem (m : LetterMap) (l p x : String) : Bool :=
  m.any (fun le => decide (l = le.1) &&
    le.2.any (fun pe => decide (p = pe.1) && decide (x ∈ pe.2)))

/-- Well-formedness: duplicate-free keys at both levels.  Python dictionaries
have this by construction; the builders below maintain it. -/
def lmWF (m : LetterMap) : Prop :=
  (m.map Prod.fst).Nodup ∧ ∀ e ∈ m, (e.2.map Prod.fst).Nodup

/-- Number of elements of `ks` whose id attribute equals `id`. -/
def idOcc (id : String) (ks : List XML) : Nat :=
  (ks.filter (fun k => decide (k.get "id" = some id))).length

/-- Number of violations in `errs` carrying the message `m`. -/
def countMsg (errs : List Violation) (m : Msg) : Nat :=
  errs.countP (fun v => decide (v.message = m))

/-- Pairwise distinctness and injectivity of the four message families of one
gathering loop — true of both instantiations; needed to count violations per
identifier. -/
structure DistinctMsgs (msgs : ItemMsgs) : Prop where
  locInj : ∀ a b, msgs.dupLocal a = msgs.dupLocal b ↔ a = b
  globInj : ∀ a b, msgs.dupGlobal a = msgs.dupGlobal b ↔ a = b
  locGlob : ∀ a b, msgs.dupLocal a ≠ msgs.dupGlobal b
  missingLoc : ∀ a, msgs.missingId ≠ msgs.dupLocal a
  missingGlob : ∀ a, msgs.missingId ≠ msgs.dupGlobal a
  lemmaLoc : ∀ a b, msgs.missingLemma a ≠ msgs.dupLocal b
  lemmaGlob : ∀ a b, msgs.missingLemma a ≠ msgs.dupGlobal b
  missingIdLemma : ∀ a, msgs.missingId ≠ msgs.missingLemma a
  lemmaInj : ∀ a b, msgs.missingLemma a = msgs.missingLemma b ↔ a = b


/-!
## Helper lemmas: error accumulation, set and map operations
-/

theorem foldl_append_flatMap {α β : Type} (f : α → List β) :
    ∀ (xs : List α) (acc : List β),
      xs.foldl (fun errs x => errs ++ f x) acc = acc ++ xs.flatMap f := by
  intro xs
  induction xs with
  | nil => intro acc; simp
  | cons x xs ih => intro acc; simp [List.foldl_cons, ih]

theorem mem_addLine {s : LineSet} {a x : String} : x ∈ addLine s a ↔ x ∈ s ∨ x = a := by
  unfold addLine
  by_cases h : a ∈ s
  · simp only [if_pos h]
    constructor
    · exact fun hx => Or.inl hx
    · rintro (hx | rfl)
      · exact hx
      · exact h
  · simp [if_neg h]

theorem mem_lineUnion : ∀ (t s : LineSet) (x : String),
    x ∈ lineUnion s t ↔ x ∈ s ∨ x ∈ t
  | [], s, x => by simp [lineUnion]
  | a :: t, s, x => by
    have h1 : lineUnion s (a :: t) = lineUnion (addLine s a) t := rfl
    rw [h1, mem_lineUnion t (addLine s a) x, mem_addLine]
    simp only [List.mem_cons]
    tauto

theorem pmLookup_pmUnionAt : ∀ (pm : PageMap) (p : String) (ls : LineSet) (q : String),
    pmLookup (pmUnionAt pm p ls) q =
      if q = p then some (lineUnion ((pmLookup pm p).getD []) ls) else pmLookup pm q
  | [], p, ls, q => by
    by_cases h : q = p
    · subst h; simp [pmUnionAt, pmLookup]
    · simp [pmUnionAt, pmLookup, h, Ne.symm h]
  | (k, s) :: rest, p, ls, q => by
    unfold pmUnionAt
    by_cases hkp : k = p
    · subst hkp
      by_cases hq : q = k
      · subst hq; simp [pmLookup]
      · simp [pmLookup, hq, Ne.symm hq]
    · simp only [if_neg hkp]
      by_cases hq : q = k
      · subst hq
        simp [pmLookup, hkp]
      · simp only [pmLookup, if_neg (Ne.symm hq), if_neg hkp]
        exact pmLookup_pmUnionAt rest p ls q

theorem lmLookup_lmUnionAt : ∀ (m : LetterMap) (l p : String) (ls : LineSet) (q : String),
    lmLookup (lmUnionAt m l p ls) q =
      if q = l then some (pmUnionAt (pagesOf m l) p ls) else lmLookup m q
  | [], l, p, ls, q => by
    by_cases h : q = l
    · subst h; simp [lmUnionAt, lmLookup, pagesOf]
    · simp [lmUnionAt, lmLookup, pagesOf, h, Ne.symm h]
  | (k, pm) :: rest, l, p, ls, q => by
    unfold lmUnionAt
    by_cases hkl : k = l
    · subst hkl
      by_cases hq : q = k
      · subst hq; simp [lmLookup, pagesOf]
      · simp [lmLookup, pagesOf, hq, Ne.symm hq]
    · simp only [if_neg hkl]
      by_cases hq : q = k
      · subst hq
        simp [lmLookup, hkl]
      · simp only [lmLookup, if_neg (Ne.symm hq)]
        rw [lmLookup_lmUnionAt rest l p ls q]
        by_cases hql : q = l
        · subst hql
          simp [pagesOf, lmLookup, if_neg (Ne.symm hq)]
        · simp [hql]

/-- The effect of one `map_a[l][p].update(ls)` on three-level membership. -/
theorem hasLine_lmUnionAt (m : LetterMap) (l p : String) (ls : LineSet) (l' p' x : String) :
    hasLine (lmUnionAt m l p ls) l' p' x = true ↔
      (hasLine m l' p' x = true ∨ (l' = l ∧ p' = p ∧ x ∈ ls)) := by
  unfold hasLine linesOf pagesOf
  simp only [decide_eq_true_eq]
  rw [lmLookup_lmUnionAt]
  by_cases hl : l' = l
  · subst hl
    rw [if_pos rfl]
    simp only [Option.getD_some]
    rw [pmLookup_pmUnionAt]
    by_cases hp : p' = p
    · subst hp
      rw [if_pos rfl]
      simp [mem_lineUnion, pagesOf]
    · rw [if_neg hp]
      simp [pagesOf, hp]
  · rw [if_neg hl]
    simp [hl]

theorem lmAddLine_eq_lmUnionAt : ∀ (m : LetterMap) (l p ln : String),
    lmAddLine m l p ln = lmUnionAt m l p [ln] := by
  have hpm : ∀ (pm : PageMap) (p ln : String), pmAddLine pm p ln = pmUnionAt pm p [ln] := by
    intro pm
    induction pm with
    | nil => intro p ln; simp [pmAddLine, pmUnionAt, lineUnion, addLine]
    | cons e rest ih =>
      intro p ln
      obtain ⟨q, s⟩ := e
      by_cases h : q = p <;> simp [pmAddLine, pmUnionAt, h, ih, lineUnion]
  intro m
  induction m with
  | nil => intro l p ln; simp [lmAddLine, lmUnionAt, hpm]
  | cons e rest ih =>
    intro l p ln
    obtain ⟨k, pm⟩ := e
    by_cases h : k = l <;> simp [lmAddLine, lmUnionAt, h, ih, hpm]

/-- The effect of one `m[l][p].add(ln)` on three-level membership. -/
theorem hasLine_lmAddLine (m : LetterMap) (l p ln : String) (l' p' x : String) :
    hasLine (lmAddLine m l p ln) l' p' x = true ↔
      (hasLine m l' p' x = true ∨ (l' = l ∧ p' = p ∧ x = ln)) := by
  rw [lmAddLine_eq_lmUnionAt, hasLine_lmUnionAt]
  simp

/-!
## Merge = union (towards the C4 claim)
-/

theorem hasLine_pmFold (k : String) : ∀ (pm : PageMap) (a : LetterMap) (l p x : String),
    hasLine (pm.foldl (fun acc2 pe => lmUnionAt acc2 k pe.1 pe.2) a) l p x = true ↔
      (hasLine a l p x = true ∨
        (l = k ∧ pm.any (fun pe => decide (p = pe.1) && decide (x ∈ pe.2)) = true))
  | [], a, l, p, x => by simp
  | pe :: pm', a, l, p, x => by
    simp only [List.foldl_cons]
    rw [hasLine_pmFold k pm' (lmUnionAt a k pe.1 pe.2) l p x, hasLine_lmUnionAt]
    simp only [List.any_cons, Bool.or_eq_true, Bool.and_eq_true, decide_eq_true_eq]
    tauto

/-- The merged map holds a triple exactly when the base map holds it (lookup
membership) or some entry of the merged-in map records it. -/
theorem hasLine_merge : ∀ (map_b map_a : LetterMap) (l p x : String),
    hasLine (merge_page_line_maps map_a map_b) l p x = true ↔
      (hasLine map_a l p x = true ∨ occMem map_b l p x = true)
  | [], a, l, p, x => by simp [merge_page_line_maps, occMem]
  | (k, pm) :: rest, a, l, p, x => by
    have h1 : merge_page_line_maps a ((k, pm) :: rest) =
        merge_page_line_maps (pm.foldl (fun acc2 pe => lmUnionAt acc2 k pe.1 pe.2) a) rest :=
      rfl
    rw [h1, hasLine_merge rest _ l p x, hasLine_pmFold]
    simp only [occMem, List.any_cons, Bool.or_eq_true, Bool.and_eq_true, decide_eq_true_eq]
    tauto

theorem occMem_of_hasLine : ∀ (m : LetterMap) (l p x : String),
    hasLine m l p x = true → occMem m l p x = true := by
  have hpm : ∀ (pm : PageMap) (p x : String), x ∈ (pmLookup pm p).getD [] →
      pm.any (fun pe => decide (p = pe.1) && decide (x ∈ pe.2)) = true := by
    intro pm
    induction pm with
    | nil => intro p x hx; simp [pmLookup] at hx
    | cons pe rest ih =>
      intro p x hx
      obtain ⟨q, s⟩ := pe
      by_cases hq : q = p
      · rw [show pmLookup ((q, s) :: rest) p = some s by simp [pmLookup, hq]] at hx
        simp only [Option.getD_some] at hx
        simp only [List.any_cons, Bool.or_eq_true, Bool.and_eq_true, decide_eq_true_eq]
        exact Or.inl ⟨hq.symm, hx⟩
      · rw [show pmLookup ((q, s) :: rest) p = pmLookup rest p by simp [pmLookup, hq]] at hx
        simp only [List.any_cons, Bool.or_eq_true]
        exact Or.inr (ih p x hx)
  intro m
  induction m with
  | nil => intro l p x h; simp [hasLine, linesOf, pagesOf, lmLookup, pmLookup] at h
  | cons le rest ih =>
    intro l p x h
    obtain ⟨k, pm⟩ := le
    by_cases hk : k = l
    · have hps : pagesOf ((k, pm) :: rest) l = pm := by simp [pagesOf, lmLookup, hk]
      simp only [hasLine, linesOf, hps, decide_eq_true_eq] at h
      simp only [occMem, List.any_cons, Bool.or_eq_true, Bool.and_eq_true, decide_eq_true_eq]
      exact Or.inl ⟨hk.symm, hpm pm p x h⟩
    · rw [show hasLine ((k, pm) :: rest) l p x = hasLine rest l p x by
        simp [hasLine, linesOf, pagesOf, lmLookup, hk]] at h
      simp only [occMem, List.any_cons, Bool.or_eq_true]
      exact Or.inr (ih l p x h)

theorem hasLine_of_occMem : ∀ (m : LetterMap) (l p x : String),
    lmWF m → occMem m l p x = true → hasLine m l p x = true := by
  have hpm : ∀ (pm : PageMap) (p x : String), (pm.map Prod.fst).Nodup →
      pm.any (fun pe => decide (p = pe.1) && decide (x ∈ pe.2)) = true →
      x ∈ (pmLookup pm p).getD [] := by
    intro pm
    induction pm with
    | nil => intro p x _ h; simp at h
    | cons pe rest ih =>
      intro p x hnd h
      obtain ⟨q, s⟩ := pe
      simp only [List.map_cons, List.nodup_cons] at hnd
      simp only [List.any_cons, Bool.or_eq_true, Bool.and_eq_true, decide_eq_true_eq] at h
      by_cases hq : q = p
      · rw [show pmLookup ((q, s) :: rest) p = some s by simp [pmLookup, hq]]
        simp only [Option.getD_some]
        rcases h with ⟨_, hx⟩ | htail
        · exact hx
        · exfalso
          rcases List.any_eq_true.mp htail with ⟨pe', hpe', hcond⟩
          simp only [Bool.and_eq_true, decide_eq_true_eq] at hcond
          refine hnd.1 ?_
          rw [hq, hcond.1]
          exact List.mem_map_of_mem Prod.fst hpe'
      · rw [show pmLookup ((q, s) :: rest) p = pmLookup rest p by simp [pmLookup, hq]]
        rcases h with ⟨hpq, _⟩ | htail
        · exact absurd hpq.symm hq
        · exact ih p x hnd.2 htail
  intro m
  induction m with
  | nil => intro l p x _ h; simp [occMem] at h
  | cons le rest ih =>
    intro l p x hwf h
    obtain ⟨k, pm⟩ := le
    obtain ⟨hnd, hinner⟩ := hwf
    simp only [List.map_cons, List.nodup_cons] at hnd
    simp only [occMem, List.any_cons, Bool.or_eq_true, Bool.and_eq_true,
      decide_eq_true_eq] at h
    by_cases hk : k = l
    · have hps : pagesOf ((k, pm) :: rest) l = pm := by simp [pagesOf, lmLookup, hk]
      simp only [hasLine, linesOf, hps, decide_eq_true_eq]
      rcases h with ⟨_, hany⟩ | htail
      · exact hpm pm p x (hinner (k, pm) (List.mem_cons_self _ _)) hany
      · exfalso
        rcases List.any_eq_true.mp htail with ⟨le', hle', hcond⟩
        simp only [Bool.and_eq_true, decide_eq_true_eq] at hcond
        refine hnd.1 ?_
        rw [hk, hcond.1]
        exact List.mem_map_of_mem Prod.fst hle'
    · rw [show hasLine ((k, pm) :: rest) l p x = hasLine rest l p x by
        simp [hasLine, linesOf, pagesOf, lmLookup, hk]]
      rcases h with ⟨hlk, _⟩ | htail
      · exact absurd hlk.symm hk
      · refine ih l p x ⟨hnd.2, ?_⟩ htail
        intro e he
        exact hinner e (List.mem_cons_of_mem _ he)

theorem foldl_preserve {α β : Type} (P : β → Prop) (f : β → α → β)
    (hstep : ∀ b a, P b → P (f b a)) : ∀ (xs : List α) (b : β), P b → P (xs.foldl f b) := by
  intro xs
  induction xs with
  | nil => intro b hb; exact hb
  | cons x xs ih => intro b hb; exact ih (f b x) (hstep b x hb)

theorem pmKeys_pmAddLine (p ln : String) : ∀ (pm : PageMap),
    (pmAddLine pm p ln).map Prod.fst =
      if p ∈ pm.map Prod.fst then pm.map Prod.fst else pm.map Prod.fst ++ [p]
  | [] => by simp [pmAddLine]
  | (q, s) :: rest => by
    by_cases hq : q = p
    · simp [pmAddLine, hq]
    · simp only [pmAddLine, if_neg hq, List.map_cons, pmKeys_pmAddLine p ln rest]
      by_cases hp : p ∈ rest.map Prod.fst
      · simp [hp, List.mem_cons, Ne.symm hq]
      · simp [hp, List.mem_cons, Ne.symm hq]

theorem pmNodup_pmAddLine {pm : PageMap} (p ln : String) (h : (pm.map Prod.fst).Nodup) :
    ((pmAddLine pm p ln).map Prod.fst).Nodup := by
  rw [pmKeys_pmAddLine]
  by_cases hp : p ∈ pm.map Prod.fst
  · simpa [hp] using h
  · simp [hp, List.nodup_append, h]

theorem lmKeys_lmAddLine (l p ln : String) : ∀ (m : LetterMap),
    (lmAddLine m l p ln).map Prod.fst =
      if l ∈ m.map Prod.fst then m.map Prod.fst else m.map Prod.fst ++ [l]
  | [] => by simp [lmAddLine]
  | (k, pm) :: rest => by
    by_cases hk : k = l
    · simp [lmAddLine, hk]
    · simp only [lmAddLine, if_neg hk, List.map_cons, lmKeys_lmAddLine l p ln rest]
      by_cases hl : l ∈ rest.map Prod.fst
      · simp [hl, List.mem_cons, Ne.symm hk]
      · simp [hl, List.mem_cons, Ne.symm hk]

theorem lmWF_lmAddLine (l p ln : String) : ∀ {m : LetterMap}, lmWF m →
    lmWF (lmAddLine m l p ln) := by
  intro m
  induction m with
  | nil =>
    intro _
    constructor
    · simp [lmAddLine, pmAddLine]
    · intro e he
      simp only [lmAddLine, pmAddLine, List.mem_singleton] at he
      subst he
      simp
  | cons le rest ih =>
    intro h
    obtain ⟨k, pm⟩ := le
    obtain ⟨hnd, hinner⟩ := h
    simp only [List.map_cons, List.nodup_cons] at hnd
    by_cases hk : k = l
    · constructor
      · simpa [lmAddLine, hk] using hnd
      · intro e he
        simp only [lmAddLine, if_pos hk, List.mem_cons] at he
        rcases he with rfl | he
        · exact pmNodup_pmAddLine p ln (hinner (k, pm) (List.mem_cons_self _ _))
        · exact hinner e (List.mem_cons_of_mem _ he)
    · have hrest : lmWF rest :=
        ⟨hnd.2, fun e he => hinner e (List.mem_cons_of_mem _ he)⟩
      have hih := ih hrest
      constructor
      · simp only [lmAddLine, if_neg hk, List.map_cons, List.nodup_cons]
        refine ⟨?_, hih.1⟩
        rw [lmKeys_lmAddLine]
        by_cases hl : l ∈ rest.map Prod.fst
        · simpa [hl] using hnd.1
        · simp [hl, hnd.1, hk]
      · intro e he
        simp only [lmAddLine, if_neg hk, List.mem_cons] at he
        rcases he with rfl | he
        · exact hinner (k, pm) (List.mem_cons_self _ _)
        · exact hih.2 e he

theorem lmWF_nil : lmWF [] := by
  constructor
  · simp
  · intro e he
    simp at he

theorem lmWF_brief_step (st : BriefScan) (e : XML) (h : lmWF st.map) :
    lmWF (brief_step st e).map := by
  simp only [brief_step]
  split_ifs <;> first
    | exact h
    | exact lmWF_lmAddLine _ _ _ h

theorem lmWF_trad_step (letter_id : String) (st : Option String × LetterMap) (e : XML)
    (h : lmWF st.2) : lmWF (trad_step letter_id st e).2 := by
  simp only [trad_step]
  split_ifs <;> first
    | exact h
    | exact lmWF_lmAddLine _ _ _ h

/-- The transcription-derived map is a well-formed dictionary. -/
theorem lmWF_build_brief (doc_root : XML) : lmWF (build_letter_page_line_map_brief doc_root) := by
  unfold build_letter_page_line_map_brief scan_brief
  exact foldl_preserve (fun st : BriefScan => lmWF st.map) brief_step lmWF_brief_step _ _ lmWF_nil

/-- The tradition-derived map is a well-formed dictionary. -/
theorem lmWF_build_trad (trad_root : XML) : lmWF (build_letter_page_line_map_trad trad_root) := by
  unfold build_letter_page_line_map_trad
  refine foldl_preserve (fun m : LetterMap => lmWF m) _ ?_ _ _ lmWF_nil
  intro m lt hm
  by_cases hlt : truthy (lt.get "letter")
  · simp only [if_pos hlt]
    exact foldl_preserve (fun st : Option String × LetterMap => lmWF st.2)
      (trad_step ((lt.get "letter").getD "")) (lmWF_trad_step _) _ _ hm
  · simpa [hlt] using hm

/-!
## Scan-state lemmas for the transcription builder
-/

theorem brief_step_letterText_page (st : BriefScan) (e : XML) (h : e.tag = "letterText") :
    (brief_step st e).current_page = st.current_page := by
  simp [brief_step, h]

theorem brief_step_letterText_letter (st : BriefScan) (e : XML) (h : e.tag = "letterText") :
    (brief_step st e).current_letter = e.get "letter" := by
  simp [brief_step, h]

/-- Elements that are neither `letterText` nor a truthy-indexed `page` leave
both components of the scan state unchanged. -/
theorem brief_step_neutral (st : BriefScan) (e : XML) (h1 : e.tag ≠ "letterText")
    (h2 : e.tag = "page" → truthy (e.get "index") = false) :
    (brief_step st e).current_letter = st.current_letter ∧
      (brief_step st e).current_page = st.current_page := by
  simp only [brief_step]
  split_ifs with hA hB hC
  · exact absurd hA h1
  · exact absurd hC (by simp [h2 hB])
  · exact ⟨rfl, rfl⟩
  · exact ⟨rfl, rfl⟩
  · exact ⟨rfl, rfl⟩
  · exact ⟨rfl, rfl⟩

theorem scan_brief_neutral : ∀ (bs : List XML) (st : BriefScan),
    (∀ e ∈ bs, e.tag ≠ "letterText" ∧ (e.tag = "page" → truthy (e.get "index") = false)) →
    (scan_brief bs st).current_letter = st.current_letter ∧
      (scan_brief bs st).current_page = st.current_page
  | [], st, _ => ⟨rfl, rfl⟩
  | e :: bs, st, h => by
    have he := h e (List.mem_cons_self _ _)
    have hrest := scan_brief_neutral bs (brief_step st e)
      (fun x hx => h x (List.mem_cons_of_mem _ hx))
    have hstep := brief_step_neutral st e he.1 he.2
    have hsc : scan_brief (e :: bs) st = scan_brief bs (brief_step st e) := rfl
    rw [hsc]
    exact ⟨hrest.1.trans hstep.1, hrest.2.trans hstep.2⟩

theorem hasLine_brief_step_mono (l p x : String) (st : BriefScan) (e : XML)
    (h : hasLine st.map l p x = true) : hasLine (brief_step st e).map l p x = true := by
  simp only [brief_step]
  split_ifs <;> first
    | exact h
    | exact (hasLine_lmAddLine _ _ _ _ _ _ _).mpr (Or.inl h)

theorem hasLine_scan_brief_mono (l p x : String) (xs : List XML) (st : BriefScan)
    (h : hasLine st.map l p x = true) : hasLine (scan_brief xs st).map l p x = true :=
  foldl_preserve (fun st : BriefScan => hasLine st.map l p x = true) brief_step
    (fun b a hb => hasLine_brief_step_mono l p x b a hb) xs st h

/-- A `line` element with a truthy index records the current (letter, page)
pair when both are set and truthy. -/
theorem brief_step_line_records (st : BriefScan) (e : XML) (L p ln : String)
    (htag : e.tag = "line") (hL : st.current_letter = some L) (hp : st.current_page = some p)
    (hidx : e.get "index" = some ln) (hL0 : L ≠ "") (hp0 : p ≠ "") (hln0 : ln ≠ "") :
    hasLine (brief_step st e).map L p ln = true := by
  simp only [brief_step, htag, hL, hp, hidx]
  have hc : (truthy (some L) && truthy (some p) && truthy (some ln)) = true := by
    simp [truthy, hL0, hp0, hln0]
  rw [if_neg (by decide), if_neg (by decide), if_pos hc]
  simp only [Option.getD_some]
  exact (hasLine_lmAddLine _ _ _ _ _ _ _).mpr (Or.inr ⟨rfl, rfl, rfl⟩)

/-!
## Accounting lemmas for the gathering loops
-/

theorem countMsg_append (l l' : List Violation) (m : Msg) :
    countMsg (l ++ l') m = countMsg l m + countMsg l' m := by
  simp [countMsg, List.countP_append]

theorem subsection_msgs_dupLocal : subsection_msgs.dupLocal = Msg.dupSubsectionLocal := rfl

theorem subsection_msgs_dupGlobal : subsection_msgs.dupGlobal = Msg.dupSubsectionGlobal := rfl

theorem kommentar_msgs_dupLocal : kommentar_msgs.dupLocal = Msg.dupKommentarLocal := rfl

theorem kommentar_msgs_dupGlobal : kommentar_msgs.dupGlobal = Msg.dupKommentarGlobal := rfl

theorem distinct_kommentar_msgs : DistinctMsgs kommentar_msgs := by
  constructor <;> intros <;> simp [kommentar_msgs]

theorem distinct_subsection_msgs : DistinctMsgs subsection_msgs := by
  constructor <;> intros <;> simp [subsection_msgs]

theorem item_step_errors_grow (msgs : ItemMsgs) (f : String) (st : ItemScan) (k : XML) :
    st.errors <+: (item_step msgs f st k).errors := by
  simp only [item_step]
  split_ifs <;> simp [List.append_assoc]

theorem item_fold_errors_grow (msgs : ItemMsgs) (f : String) :
    ∀ (ks : List XML) (st : ItemScan),
      st.errors <+: (ks.foldl (item_step msgs f) st).errors := by
  intro ks
  induction ks with
  | nil => intro st; exact List.prefix_refl _
  | cons k ks ih =>
    intro st
    exact (item_step_errors_grow msgs f st k).trans (ih (item_step msgs f st k))

theorem item_step_global_grow (msgs : ItemMsgs) (f : String) (st : ItemScan) (k : XML) :
    st.global_ids <+: (item_step msgs f st k).global_ids := by
  simp only [item_step]
  split_ifs <;> simp

theorem item_fold_global_grow (msgs : ItemMsgs) (f : String) :
    ∀ (ks : List XML) (st : ItemScan),
      st.global_ids <+: (ks.foldl (item_step msgs f) st).global_ids := by
  intro ks
  induction ks with
  | nil => intro st; exact List.prefix_refl _
  | cons k ks ih =>
    intro st
    exact (item_step_global_grow msgs f st k).trans (ih (item_step msgs f st k))

/-- All gathering appends to the shared error list: earlier errors survive. -/
theorem gather_errors_grow (xml_root : XML) (file_path : String) (st : GatherState) :
    st.errors <+: (gather_commentaries_and_subsections xml_root file_path st).errors := by
  unfold gather_commentaries_and_subsections
  refine (item_fold_errors_grow kommentar_msgs file_path (xml_root.findall "kommentar")
      ⟨[], st.global_kommentar_ids, st.errors⟩).trans ?_
  exact item_fold_errors_grow subsection_msgs file_path (xml_root.findall "subsection")
    ⟨[], st.global_subsection_ids, _⟩

/-- Processing an element whose id attribute is not `id` changes none of the
`id`-relevant quantities. -/
theorem item_step_other (msgs : ItemMsgs) (hd : DistinctMsgs msgs) (f : String)
    (id : String) (st : ItemScan) (k : XML) (hne : ¬ k.get "id" = some id) :
    (countMsg (item_step msgs f st k).errors (msgs.dupLocal id) =
      countMsg st.errors (msgs.dupLocal id)) ∧
    (countMsg (item_step msgs f st k).errors (msgs.dupGlobal id) =
      countMsg st.errors (msgs.dupGlobal id)) ∧
    ((item_step msgs f st k).global_ids.count id = st.global_ids.count id) ∧
    (id ∈ (item_step msgs f st k).local_ids ↔ id ∈ st.local_ids) ∧
    (id ∈ (item_step msgs f st k).global_ids ↔ id ∈ st.global_ids) := by
  by_cases htr : truthy (k.get "id") = true
  · have hsome : k.get "id" = some ((k.get "id").getD "") := by
      cases hkid : k.get "id" with
      | none => rw [hkid] at htr; simp [truthy] at htr
      | some s => simp
    have hk0 : (k.get "id").getD "" ≠ id := by
      intro h
      exact hne (by rw [hsome, h])
    have h1 : ¬ (msgs.dupLocal ((k.get "id").getD "") = msgs.dupLocal id) := by
      rw [hd.locInj]; exact hk0
    have h2 : ¬ (msgs.dupGlobal ((k.get "id").getD "") = msgs.dupGlobal id) := by
      rw [hd.globInj]; exact hk0
    have h3 : ¬ (msgs.dupLocal ((k.get "id").getD "") = msgs.dupGlobal id) :=
      hd.locGlob _ _
    have h4 : ¬ (msgs.dupGlobal ((k.get "id").getD "") = msgs.dupLocal id) :=
      (hd.locGlob id ((k.get "id").getD "")).symm
    have h5 : ¬ (msgs.missingLemma ((k.get "id").getD "") = msgs.dupLocal id) :=
      hd.lemmaLoc _ _
    have h6 : ¬ (msgs.missingLemma ((k.get "id").getD "") = msgs.dupGlobal id) :=
      hd.lemmaGlob _ _
    have h7 : ¬ (id = (k.get "id").getD "") := fun h => hk0 h.symm
    simp only [item_step, htr, Bool.not_true, Bool.false_eq_true, if_false]
    split_ifs <;>
      simp [countMsg, List.countP_append, List.countP_cons, List.count_append,
        List.count_cons, h1, h2, h3, h4, h5, h6, h7]
  · have hfalse : truthy (k.get "id") = false := by
      cases h : truthy (k.get "id")
      · rfl
      · exact absurd h htr
    have hm1 : ¬ (msgs.missingId = msgs.dupLocal id) := hd.missingLoc id
    have hm2 : ¬ (msgs.missingId = msgs.dupGlobal id) := hd.missingGlob id
    simp only [item_step, hfalse, Bool.not_false, if_true]
    simp [countMsg, List.countP_append, List.countP_cons, hm1, hm2]

/-- Processing an element whose id attribute is `id`: the local duplicate
violation fires iff `id` is already in the local set, the global duplicate
violation fires iff `id` is already in the global pool, the pool gains `id`
only when absent, and afterwards `id` is in both sets. -/
theorem item_step_hit (msgs : ItemMsgs) (hd : DistinctMsgs msgs) (f : String)
    (id : String) (hid : id ≠ "") (st : ItemScan) (k : XML) (heq : k.get "id" = some id) :
    (countMsg (item_step msgs f st k).errors (msgs.dupLocal id) =
      countMsg st.errors (msgs.dupLocal id) + (if id ∈ st.local_ids then 1 else 0)) ∧
    (countMsg (item_step msgs f st k).errors (msgs.dupGlobal id) =
      countMsg st.errors (msgs.dupGlobal id) + (if id ∈ st.global_ids then 1 else 0)) ∧
    ((item_step msgs f st k).global_ids.count id =
      st.global_ids.count id + (if id ∈ st.global_ids then 0 else 1)) ∧
    (id ∈ (item_step msgs f st k).local_ids) ∧
    (id ∈ (item_step msgs f st k).global_ids) := by
  have htr : truthy (k.get "id") = true := by rw [heq]; simp [truthy, hid]
  have hGL : ¬ (msgs.dupGlobal id = msgs.dupLocal id) := (hd.locGlob id id).symm
  have hLG : ¬ (msgs.dupLocal id = msgs.dupGlobal id) := hd.locGlob id id
  have hML : ¬ (msgs.missingLemma id = msgs.dupLocal id) := hd.lemmaLoc id id
  have hMG : ¬ (msgs.missingLemma id = msgs.dupGlobal id) := hd.lemmaGlob id id
  simp only [item_step, htr, Bool.not_true, Bool.false_eq_true, if_false, heq,
    Option.getD_some]
  split_ifs with hl hg hlem hlem2 hg2 hlem3 hlem4 <;>
    simp_all [countMsg, List.countP_append, List.countP_cons, List.count_append,
      List.count_cons]

/-- Complete accounting of one gathering loop with respect to one identifier:
duplicate-violation counts, pool count, and final membership, as functions of
how often the identifier occurs and of the starting state. -/
theorem item_fold_master (msgs : ItemMsgs) (hd : DistinctMsgs msgs) (f : String)
    (id : String) (hid : id ≠ "") : ∀ (ks : List XML) (st : ItemScan),
    (countMsg ((ks.foldl (item_step msgs f) st).errors) (msgs.dupLocal id) =
      countMsg st.errors (msgs.dupLocal id) +
        (if id ∈ st.local_ids then idOcc id ks else idOcc id ks - 1)) ∧
    (countMsg ((ks.foldl (item_step msgs f) st).errors) (msgs.dupGlobal id) =
      countMsg st.errors (msgs.dupGlobal id) +
        (if id ∈ st.global_ids then idOcc id ks else idOcc id ks - 1)) ∧
    ((ks.foldl (item_step msgs f) st).global_ids.count id =
      st.global_ids.count id + (if id ∈ st.global_ids ∨ idOcc id ks = 0 then 0 else 1)) ∧
    (id ∈ (ks.foldl (item_step msgs f) st).local_ids ↔
      id ∈ st.local_ids ∨ idOcc id ks ≠ 0) ∧
    (id ∈ (ks.foldl (item_step msgs f) st).global_ids ↔
      id ∈ st.global_ids ∨ idOcc id ks ≠ 0)
  | [], st => by simp [idOcc]
  | k :: ks, st => by
    obtain ⟨ih1, ih2, ih3, ih4, ih5⟩ :=
      item_fold_master msgs hd f id hid ks (item_step msgs f st k)
    simp only [List.foldl_cons]
    by_cases hk : k.get "id" = some id
    · obtain ⟨hs1, hs2, hs3, hs4, hs5⟩ := item_step_hit msgs hd f id hid st k hk
      have hocc : idOcc id (k :: ks) = idOcc id ks + 1 := by
        simp [idOcc, List.filter_cons, hk]
      refine ⟨?_, ?_, ?_, ?_, ?_⟩
      · rw [ih1, hs1, if_pos hs4, hocc]
        by_cases hl : id ∈ st.local_ids <;> simp [hl] <;> omega
      · rw [ih2, hs2, if_pos hs5, hocc]
        by_cases hg : id ∈ st.global_ids <;> simp [hg] <;> omega
      · rw [ih3, hocc]
        simp only [hs5, true_or, if_true]
        rw [hs3]
        by_cases hg : id ∈ st.global_ids <;> simp [hg]
      · rw [ih4, hocc]
        simp [hs4]
      · rw [ih5, hocc]
        simp [hs5]
    · obtain ⟨ho1, ho2, ho3, ho4, ho5⟩ := item_step_other msgs hd f id st k hk
      have hocc : idOcc id (k :: ks) = idOcc id ks := by
        simp [idOcc, List.filter_cons, hk]
      refine ⟨?_, ?_, ?_, ?_, ?_⟩
      · rw [ih1, ho1, hocc]
        by_cases hl : id ∈ st.local_ids
        · rw [if_pos (ho4.mpr hl), if_pos hl]
        · rw [if_neg (fun h => hl (ho4.mp h)), if_neg hl]
      · rw [ih2, ho2, hocc]
        by_cases hg : id ∈ st.global_ids
        · rw [if_pos (ho5.mpr hg), if_pos hg]
        · rw [if_neg (fun h => hg (ho5.mp h)), if_neg hg]
      · rw [ih3, ho3, hocc]
        by_cases hg : id ∈ st.global_ids
        · simp [hg, ho5.mpr hg]
        · simp [hg, ho5]
      · rw [ih4, hocc, ho4]
      · rw [ih5, hocc, ho5]

/-- A gathering loop never emits messages from a foreign family. -/
theorem item_fold_countMsg_foreign (msgs : ItemMsgs) (f : String) (m : Msg)
    (hm1 : msgs.missingId ≠ m) (hm2 : ∀ a, msgs.dupLocal a ≠ m)
    (hm3 : ∀ a, msgs.dupGlobal a ≠ m) (hm4 : ∀ a, msgs.missingLemma a ≠ m) :
    ∀ (ks : List XML) (st : ItemScan),
      countMsg ((ks.foldl (item_step msgs f) st).errors) m = countMsg st.errors m := by
  intro ks
  induction ks with
  | nil => intro st; rfl
  | cons k ks ih =>
    intro st
    rw [List.foldl_cons, ih]
    simp only [item_step]
    split_ifs <;>
      simp [countMsg, List.countP_append, List.countP_cons, hm1, hm2 _, hm3 _, hm4 _]

theorem item_step_global_nodup (msgs : ItemMsgs) (f : String) (st : ItemScan) (k : XML)
    (h : st.global_ids.Nodup) : (item_step msgs f st k).global_ids.Nodup := by
  simp only [item_step]
  split_ifs <;> simp_all [List.nodup_append]

theorem item_fold_global_nodup (msgs : ItemMsgs) (f : String) (ks : List XML) (st : ItemScan)
    (h : st.global_ids.Nodup) : (ks.foldl (item_step msgs f) st).global_ids.Nodup :=
  foldl_preserve (fun s : ItemScan => s.global_ids.Nodup) (item_step msgs f)
    (fun b a hb => item_step_global_nodup msgs f b a hb) ks st h

/-- Every violation appended unconditionally by the processing of one element
appears in the final error list of the loop. -/
theorem item_fold_mem (msgs : ItemMsgs) (f : String) {ks : List XML} {k : XML}
    (hk : k ∈ ks) (v : Violation)
    (hv : ∀ st' : ItemScan, v ∈ (item_step msgs f st' k).errors)
    (st : ItemScan) : v ∈ (ks.foldl (item_step msgs f) st).errors := by
  obtain ⟨l1, l2, rfl⟩ := List.append_of_mem hk
  rw [List.foldl_append, List.foldl_cons]
  exact (item_fold_errors_grow msgs f l2 _).subset (hv _)

theorem item_fold_global_mem (msgs : ItemMsgs) (hd : DistinctMsgs msgs) (f : String)
    (id : String) (hid : id ≠ "") {ks : List XML} {k : XML} (hk : k ∈ ks)
    (heq : k.get "id" = some id) (st : ItemScan) :
    id ∈ (ks.foldl (item_step msgs f) st).global_ids := by
  obtain ⟨l1, l2, rfl⟩ := List.append_of_mem hk
  rw [List.foldl_append, List.foldl_cons]
  exact (item_fold_global_grow msgs f l2 _).subset
    (item_step_hit msgs hd f id hid _ k heq).2.2.2.2

/-- When the element's subtree does contain a descriptive child, its processing
appends no missing-child violation. -/
theorem item_step_no_new_missingLemma (msgs : ItemMsgs) (hd : DistinctMsgs msgs)
    (f : String) (st : ItemScan) (k : XML) (hlem : (k.findall "lemma") ≠ [])
    (v : Violation) (hv : v ∈ (item_step msgs f st k).errors) :
    v ∈ st.errors ∨ ∀ a, v.message ≠ msgs.missingLemma a := by
  have hne : (k.findall "lemma").isEmpty = false := by
    cases hfe : k.findall "lemma" with
    | nil => exact absurd hfe hlem
    | cons a l => simp
  have hArm : ∀ (w : Msg), (∀ a, w ≠ msgs.missingLemma a) →
      ∀ (errs : List Violation) (ln : Option Nat), v ∈ errs ++ [⟨f, ln, w⟩] →
        v ∈ errs ∨ ∀ a, v.message ≠ msgs.missingLemma a := by
    intro w hw errs ln hmem
    rcases List.mem_append.mp hmem with h | h
    · exact Or.inl h
    · rw [List.mem_singleton] at h
      subst h
      exact Or.inr hw
  have hArm2 : ∀ (w1 w2 : Msg), (∀ a, w1 ≠ msgs.missingLemma a) →
      (∀ a, w2 ≠ msgs.missingLemma a) →
      ∀ (errs : List Violation) (ln : Option Nat),
        v ∈ (errs ++ [⟨f, ln, w1⟩]) ++ [⟨f, ln, w2⟩] →
        v ∈ errs ∨ ∀ a, v.message ≠ msgs.missingLemma a := by
    intro w1 w2 hw1 hw2 errs ln hmem
    rcases hArm _ hw2 _ _ hmem with h | h
    · exact hArm _ hw1 _ _ h
    · exact Or.inr h
  have hwL : ∀ a, msgs.dupLocal ((k.get "id").getD "") ≠ msgs.missingLemma a :=
    fun a => (hd.lemmaLoc a _).symm
  have hwG : ∀ a, msgs.dupGlobal ((k.get "id").getD "") ≠ msgs.missingLemma a :=
    fun a => (hd.lemmaGlob a _).symm
  simp only [item_step, hne, Bool.false_eq_true, if_false] at hv
  split_ifs at hv <;>
    first
      | exact Or.inl hv
      | exact hArm _ hd.missingIdLemma _ _ hv
      | exact hArm _ hwL _ _ hv
      | exact hArm _ hwG _ _ hv
      | exact hArm2 _ _ hwL hwG _ _ hv

/-- When the element's subtree contains no descriptive child, a missing-child
violation is appended regardless of the duplicate checks. -/
theorem item_step_missingLemma_mem (msgs : ItemMsgs) (f : String) (st : ItemScan)
    (k : XML) (id : String) (heq : k.get "id" = some id) (hid : id ≠ "")
    (hnol : k.findall "lemma" = []) :
    (⟨f, get_line_number k, msgs.missingLemma id⟩ : Violation) ∈
      (item_step msgs f st k).errors := by
  have htr : truthy (some id) = true := by simp [truthy, hid]
  have hemp : (k.findall "lemma").isEmpty = true := by rw [hnol]; rfl
  simp only [item_step, heq, htr, Bool.not_true, Bool.false_eq_true, if_false,
    Option.getD_some, hemp, if_true]
  split_ifs <;> simp

/-- Effect of gathering one register document on the kommentar-related
quantities of one identifier. -/
theorem gather_kommentar_spec (xml_root : XML) (f : String) (st : GatherState)
    (id : String) (hid : id ≠ "") :
    (countMsg (gather_commentaries_and_subsections xml_root f st).errors
        (Msg.dupKommentarLocal id) =
      countMsg st.errors (Msg.dupKommentarLocal id) +
        (idOcc id (xml_root.findall "kommentar") - 1)) ∧
    (countMsg (gather_commentaries_and_subsections xml_root f st).errors
        (Msg.dupKommentarGlobal id) =
      countMsg st.errors (Msg.dupKommentarGlobal id) +
        (if id ∈ st.global_kommentar_ids then idOcc id (xml_root.findall "kommentar")
         else idOcc id (xml_root.findall "kommentar") - 1)) ∧
    ((gather_commentaries_and_subsections xml_root f st).global_kommentar_ids.count id =
      st.global_kommentar_ids.count id +
        (if id ∈ st.global_kommentar_ids ∨ idOcc id (xml_root.findall "kommentar") = 0
         then 0 else 1)) ∧
    (id ∈ (gather_commentaries_and_subsections xml_root f st).global_kommentar_ids ↔
      id ∈ st.global_kommentar_ids ∨ idOcc id (xml_root.findall "kommentar") ≠ 0) := by
  obtain ⟨m1, m2, m3, m4, m5⟩ :=
    item_fold_master kommentar_msgs distinct_kommentar_msgs f id hid
      (xml_root.findall "kommentar") ⟨[], st.global_kommentar_ids, st.errors⟩
  have hforeignL := item_fold_countMsg_foreign subsection_msgs f (Msg.dupKommentarLocal id)
    (by simp [subsection_msgs]) (fun a => by simp [subsection_msgs])
    (fun a => by simp [subsection_msgs]) (fun a => by simp [subsection_msgs])
    (xml_root.findall "subsection")
  have hforeignG := item_fold_countMsg_foreign subsection_msgs f (Msg.dupKommentarGlobal id)
    (by simp [subsection_msgs]) (fun a => by simp [subsection_msgs])
    (fun a => by simp [subsection_msgs]) (fun a => by simp [subsection_msgs])
    (xml_root.findall "subsection")
  unfold gather_commentaries_and_subsections
  refine ⟨?_, ?_, ?_, ?_⟩
  · rw [hforeignL]
    simpa using m1
  · rw [hforeignG]
    exact m2
  · exact m3
  · exact m5

/-- Effect of gathering one register document on the subsection-related
quantities of one identifier. -/
theorem gather_subsection_spec (xml_root : XML) (f : String) (st : GatherState)
    (id : String) (hid : id ≠ "") :
    (countMsg (gather_commentaries_and_subsections xml_root f st).errors
        (Msg.dupSubsectionLocal id) =
      countMsg st.errors (Msg.dupSubsectionLocal id) +
        (idOcc id (xml_root.findall "subsection") - 1)) ∧
    (countMsg (gather_commentaries_and_subsections xml_root f st).errors
        (Msg.dupSubsectionGlobal id) =
      countMsg st.errors (Msg.dupSubsectionGlobal id) +
        (if id ∈ st.global_subsection_ids then idOcc id (xml_root.findall "subsection")
         else idOcc id (xml_root.findall "subsection") - 1)) ∧
    ((gather_commentaries_and_subsections xml_root f st).global_subsection_ids.count id =
      st.global_subsection_ids.count id +
        (if id ∈ st.global_subsection_ids ∨ idOcc id (xml_root.findall "subsection") = 0
         then 0 else 1)) ∧
    (id ∈ (gather_commentaries_and_subsections xml_root f st).global_subsection_ids ↔
      id ∈ st.global_subsection_ids ∨ idOcc id (xml_root.findall "subsection") ≠ 0) := by
  have hforeignL := item_fold_countMsg_foreign kommentar_msgs f (Msg.dupSubsectionLocal id)
    (by simp [kommentar_msgs]) (fun a => by simp [kommentar_msgs])
    (fun a => by simp [kommentar_msgs]) (fun a => by simp [kommentar_msgs])
    (xml_root.findall "kommentar") ⟨[], st.global_kommentar_ids, st.errors⟩
  have hforeignG := item_fold_countMsg_foreign kommentar_msgs f (Msg.dupSubsectionGlobal id)
    (by simp [kommentar_msgs]) (fun a => by simp [kommentar_msgs])
    (fun a => by simp [kommentar_msgs]) (fun a => by simp [kommentar_msgs])
    (xml_root.findall "kommentar") ⟨[], st.global_kommentar_ids, st.errors⟩
  obtain ⟨m1, m2, m3, m4, m5⟩ :=
    item_fold_master subsection_msgs distinct_subsection_msgs f id hid
      (xml_root.findall "subsection")
      ⟨[], st.global_subsection_ids,
        ((xml_root.findall "kommentar").foldl (item_step kommentar_msgs f)
          ⟨[], st.global_kommentar_ids, st.errors⟩).errors⟩
  simp only [subsection_msgs_dupLocal, subsection_msgs_dupGlobal, List.not_mem_nil,
    if_false] at m1 m2
  unfold gather_commentaries_and_subsections
  dsimp only
  refine ⟨?_, ?_, ?_, ?_⟩
  · rw [m1, hforeignL]
  · rw [m2, hforeignG]
  · exact m3
  · exact m5

/-!
## Claim theorems
-/

/-- C1: for every `intlink` element (in the tradition, marginal-notes, or
any register document — `validate_intlinks` is one flatMap over the document's
intlinks), the four-step cascade holds: (1) an absent-or-unresolved letter
yields exactly the one letter violation and nothing else; (2) a resolved
letter with no location-map entry yields exactly the one no-pages violation;
(3) a present page must exist under the letter (one violation if not), and an
absent page with a present line yields the line-without-page violation;
(4) with letter and page resolved, a present line is checked against the
(letter, page) set.  In particular, a resolved letter and page with no line
attribute yields no violation, and a present line with an absent page always
yields a violation. -/
theorem C1_intlink_cascade (letter_pages : LetterMap) (letter_refs : List (Option String))
    (file_path : String) :
    (∀ (xml_root : XML) (errors : List Violation),
      validate_intlinks xml_root file_path letter_pages letter_refs errors =
        errors ++ (xml_root.findall "intlink").flatMap
          (intlink_check letter_pages letter_refs file_path)) ∧
    (∀ e : XML, (truthy (e.get "letter") = false ∨ e.get "letter" ∉ letter_refs) →
      intlink_check letter_pages letter_refs file_path e =
        [⟨file_path, get_line_number e, .invalidIntlinkLetter (e.get "letter")⟩]) ∧
    (∀ (e : XML) (L : String), e.get "letter" = some L → L ≠ "" → some L ∈ letter_refs →
      hasLetter letter_pages L = false →
      intlink_check letter_pages letter_refs file_path e =
        [⟨file_path, get_line_number e, .intlinkNoPages L⟩]) ∧
    (∀ (e : XML) (L p : String), e.get "letter" = some L → L ≠ "" → some L ∈ letter_refs →
      hasLetter letter_pages L = true → e.get "page" = some p → p ≠ "" →
      hasPage letter_pages L p = false →
      intlink_check letter_pages letter_refs file_path e =
        [⟨file_path, get_line_number e, .invalidIntlinkPage p L⟩]) ∧
    (∀ (e : XML) (L : String), e.get "letter" = some L → L ≠ "" → some L ∈ letter_refs →
      hasLetter letter_pages L = true → truthy (e.get "page") = false →
      truthy (e.get "line") = true →
      intlink_check letter_pages letter_refs file_path e =
        [⟨file_path, get_line_number e, .intlinkLineNoPage ((e.get "line").getD "") L⟩]) ∧
    (∀ (e : XML) (L p ln : String), e.get "letter" = some L → L ≠ "" → some L ∈ letter_refs →
      hasLetter letter_pages L = true → e.get "page" = some p → p ≠ "" →
      hasPage letter_pages L p = true → e.get "line" = some ln → ln ≠ "" →
      intlink_check letter_pages letter_refs file_path e =
        (if hasLine letter_pages L p ln then []
         else [⟨file_path, get_line_number e, .invalidIntlinkLine ln L p⟩])) ∧
    (∀ (e : XML) (L p : String), e.get "letter" = some L → L ≠ "" → some L ∈ letter_refs →
      hasLetter letter_pages L = true → e.get "page" = some p → p ≠ "" →
      hasPage letter_pages L p = true → truthy (e.get "line") = false →
      intlink_check letter_pages letter_refs file_path e = []) ∧
    (∀ e : XML, truthy (e.get "line") = true → truthy (e.get "page") = false →
      intlink_check letter_pages letter_refs file_path e ≠ []) := by
  refine ⟨?_, ?_, ?_, ?_, ?_, ?_, ?_, ?_⟩
  · intro xml_root errors
    exact foldl_append_flatMap _ _ _
  · intro e h
    have hc : (!truthy (e.get "letter") || !(decide ((e.get "letter") ∈ letter_refs))) = true := by
      rcases h with h | h
      · simp [h]
      · simp [h]
    simp only [intlink_check]
    rw [if_pos hc]
  · intro e L heq hL0 hmem hLet
    simp [intlink_check, heq, truthy, hL0, hmem, hLet]
  · intro e L p heq hL0 hmem hLet hpeq hp0 hPage
    simp [intlink_check, heq, truthy, hL0, hmem, hLet, hpeq, hp0, hPage]
  · intro e L heq hL0 hmem hLet hpf hlt
    have htL : truthy (some L) = true := by simp [truthy, hL0]
    simp [intlink_check, heq, htL, hmem, hLet, hpf, hlt]
  · intro e L p ln heq hL0 hmem hLet hpeq hp0 hPage hleq hln0
    by_cases hLine : hasLine letter_pages L p ln = true
    · simp [intlink_check, heq, truthy, hL0, hmem, hLet, hpeq, hp0, hPage, hleq, hln0, hLine]
    · simp [intlink_check, heq, truthy, hL0, hmem, hLet, hpeq, hp0, hPage, hleq, hln0, hLine]
  · intro e L p heq hL0 hmem hLet hpeq hp0 hPage hlf
    have htL : truthy (some L) = true := by simp [truthy, hL0]
    have htp : truthy (some p) = true := by simp [truthy, hp0]
    simp [intlink_check, heq, htL, hmem, hLet, hpeq, htp, hPage, hlf]
  · intro e hlt hpf
    simp only [intlink_check]
    split_ifs <;> simp_all

theorem C1_intlink_cascade_witness :
    (validate_intlinks (.elem "r" [] 1 [.elem "intlink" [("letter", "L2")] 2 []]) "f"
        [("L1", [("3", ["5"])])] [some "L1"] [] =
      [⟨"f", some 2, .invalidIntlinkLetter (some "L2")⟩]) ∧
    (intlink_check [("L1", [("3", ["5"])])] [some "L1"] "f"
        (.elem "intlink" [("letter", "L2")] 9 []) =
      [⟨"f", some 9, .invalidIntlinkLetter (some "L2")⟩]) ∧
    (intlink_check [("L1", [("3", ["5"])])] [some "L1", some "L9"] "f"
        (.elem "intlink" [("letter", "L9")] 9 []) =
      [⟨"f", some 9, .intlinkNoPages "L9"⟩]) ∧
    (intlink_check [("L1", [("3", ["5"])])] [some "L1"] "f"
        (.elem "intlink" [("letter", "L1"), ("page", "4")] 9 []) =
      [⟨"f", some 9, .invalidIntlinkPage "4" "L1"⟩]) ∧
    (intlink_check [("L1", [("3", ["5"])])] [some "L1"] "f"
        (.elem "intlink" [("letter", "L1"), ("line", "5")] 9 []) =
      [⟨"f", some 9, .intlinkLineNoPage "5" "L1"⟩]) ∧
    (intlink_check [("L1", [("3", ["5"])])] [some "L1"] "f"
        (.elem "intlink" [("letter", "L1"), ("page", "3"), ("line", "7")] 9 []) =
      [⟨"f", some 9, .invalidIntlinkLine "7" "L1" "3"⟩]) ∧
    (intlink_check [("L1", [("3", ["5"])])] [some "L1"] "f"
        (.elem "intlink" [("letter", "L1"), ("page", "3")] 9 []) = []) ∧
    (intlink_check [("L1", [("3", ["5"])])] [some "L1"] "f"
        (.elem "intlink" [("letter", "L1"), ("line", "5")] 9 []) ≠ []) := by
  have h := C1_intlink_cascade [("L1", [("3", ["5"])])] [some "L1"] "f"
  have h9 := C1_intlink_cascade [("L1", [("3", ["5"])])] [some "L1", some "L9"] "f"
  refine ⟨?_, ?_, ?_, ?_, ?_, ?_, ?_, ?_⟩
  · exact (h.1 (.elem "r" [] 1 [.elem "intlink" [("letter", "L2")] 2 []]) []).trans (by decide)
  · exact (h.2.1 (.elem "intlink" [("letter", "L2")] 9 []) (Or.inr (by decide))).trans
      (by decide)
  · exact (h9.2.2.1 (.elem "intlink" [("letter", "L9")] 9 []) "L9" (by decide) (by decide)
      (by decide) (by decide)).trans (by decide)
  · exact (h.2.2.2.1 (.elem "intlink" [("letter", "L1"), ("page", "4")] 9 []) "L1" "4"
      (by decide) (by decide) (by decide) (by decide) (by decide) (by decide)
      (by decide)).trans (by decide)
  · exact (h.2.2.2.2.1 (.elem "intlink" [("letter", "L1"), ("line", "5")] 9 []) "L1"
      (by decide) (by decide) (by decide) (by decide) (by decide) (by decide)).trans
      (by decide)
  · exact (h.2.2.2.2.2.1 (.elem "intlink" [("letter", "L1"), ("page", "3"), ("line", "7")] 9 [])
      "L1" "3" "7" (by decide) (by decide) (by decide) (by decide) (by decide) (by decide)
      (by decide) (by decide) (by decide)).trans (by decide)
  · exact (h.2.2.2.2.2.2.1 (.elem "intlink" [("letter", "L1"), ("page", "3")] 9 []) "L1" "3"
      (by decide) (by decide) (by decide) (by decide) (by decide) (by decide) (by decide)
      (by decide))
  · exact h.2.2.2.2.2.2.2 (.elem "intlink" [("letter", "L1"), ("line", "5")] 9 [])
      (by decide) (by decide)

/-- C2: for every `marginal` element the three attributes are tested with
no truthiness guard (the raw `get` results are tested directly, so a missing
attribute fails resolution exactly like an unresolvable value and yields a
violation), and the cascade short-circuits at the first unresolved level:
unknown letter ⇒ exactly one violation and no page/line check; letter known
but absent from the location map, or page unresolved ⇒ exactly one violation
and no deeper check; only with letter and page resolved is the line tested;
every marginal element contributes at most one violation. -/
theorem C2_marginal_cascade (letter_pages : LetterMap) (letter_refs : List (Option String))
    (marginalien_file : String) :
    (∀ (xml_root : XML) (errors : List Violation),
      (xml_root.findall "marginal").foldl
        (fun errs m => errs ++ marginal_check letter_pages letter_refs marginalien_file m)
        errors =
        errors ++ (xml_root.findall "marginal").flatMap
          (marginal_check letter_pages letter_refs marginalien_file)) ∧
    (∀ e : XML, e.get "letter" ∉ letter_refs →
      marginal_check letter_pages letter_refs marginalien_file e =
        [⟨marginalien_file, get_line_number e, .invalidMarginalLetter (e.get "letter")⟩]) ∧
    (∀ e : XML, e.get "letter" ∈ letter_refs →
      hasLetterO letter_pages (e.get "letter") = false →
      marginal_check letter_pages letter_refs marginalien_file e =
        [⟨marginalien_file, get_line_number e, .marginalNoPages (e.get "letter")⟩]) ∧
    (∀ (e : XML) (L : String), e.get "letter" = some L → some L ∈ letter_refs →
      hasLetter letter_pages L = true → hasPageO letter_pages L (e.get "page") = false →
      marginal_check letter_pages letter_refs marginalien_file e =
        [⟨marginalien_file, get_line_number e, .invalidMarginalPage (some L) (e.get "page")⟩]) ∧
    (∀ (e : XML) (L p : String), e.get "letter" = some L → some L ∈ letter_refs →
      hasLetter letter_pages L = true → e.get "page" = some p →
      hasPage letter_pages L p = true →
      marginal_check letter_pages letter_refs marginalien_file e =
        (if hasLineO letter_pages L p (e.get "line") then []
         else [⟨marginalien_file, get_line_number e,
            .invalidMarginalLine (some L) (some p) (e.get "line")⟩])) ∧
    (∀ e : XML, (e.get "letter" = none ∨ e.get "page" = none ∨ e.get "line" = none) →
      marginal_check letter_pages letter_refs marginalien_file e ≠ []) ∧
    (∀ e : XML, (marginal_check letter_pages letter_refs marginalien_file e).length ≤ 1) := by
  refine ⟨?_, ?_, ?_, ?_, ?_, ?_, ?_⟩
  · intro xml_root errors
    exact foldl_append_flatMap _ _ _
  · intro e h
    simp [marginal_check, h]
  · intro e hmem hletf
    simp [marginal_check, hmem, hletf]
  · intro e L heq hmem hlet hpf
    simp [marginal_check, heq, hmem, hlet, hasLetterO, hpf]
  · intro e L p heq hmem hlet hpeq hp
    by_cases hline : hasLineO letter_pages L p (e.get "line") = true
    · simp [marginal_check, heq, hmem, hlet, hasLetterO, hpeq, hasPageO, hp, hline]
    · simp [marginal_check, heq, hmem, hlet, hasLetterO, hpeq, hasPageO, hp, hline]
  · intro e h
    simp only [marginal_check]
    split_ifs with h1 h2 h3 h4 <;> try simp
    rcases h with h | h | h <;> simp_all [hasLetterO, hasPageO, hasLineO]
  · intro e
    simp only [marginal_check]
    split_ifs <;> simp

theorem C2_marginal_cascade_witness :
    (marginal_check [("L1", [("3", ["5"])])] [some "L1"] "m"
        (.elem "marginal" [("letter", "L2"), ("page", "3"), ("line", "5")] 2 []) =
      [⟨"m", some 2, .invalidMarginalLetter (some "L2")⟩]) ∧
    (marginal_check [("L1", [("3", ["5"])])] [some "L1", none] "m"
        (.elem "marginal" [("page", "3")] 2 []) =
      [⟨"m", some 2, .marginalNoPages none⟩]) ∧
    (marginal_check [("L1", [("3", ["5"])])] [some "L1"] "m"
        (.elem "marginal" [("letter", "L1"), ("line", "5")] 2 []) =
      [⟨"m", some 2, .invalidMarginalPage (some "L1") none⟩]) ∧
    (marginal_check [("L1", [("3", ["5"])])] [some "L1"] "m"
        (.elem "marginal" [("letter", "L1"), ("page", "3")] 2 []) =
      [⟨"m", some 2, .invalidMarginalLine (some "L1") (some "3") none⟩]) ∧
    (marginal_check [("L1", [("3", ["5"])])] [some "L1"] "m"
        (.elem "marginal" [("letter", "L1"), ("page", "3"), ("line", "5")] 2 []) = []) ∧
    (marginal_check [("L1", [("3", ["5"])])] [some "L1"] "m"
        (.elem "marginal" [] 2 []) ≠ []) := by
  have h := C2_marginal_cascade [("L1", [("3", ["5"])])] [some "L1"] "m"
  have hn := C2_marginal_cascade [("L1", [("3", ["5"])])] [some "L1", none] "m"
  refine ⟨?_, ?_, ?_, ?_, ?_, ?_⟩
  · exact (h.2.1 (.elem "marginal" [("letter", "L2"), ("page", "3"), ("line", "5")] 2 [])
      (by decide)).trans (by decide)
  · exact (hn.2.2.1 (.elem "marginal" [("page", "3")] 2 []) (by decide) (by decide)).trans
      (by decide)
  · exact (h.2.2.2.1 (.elem "marginal" [("letter", "L1"), ("line", "5")] 2 []) "L1"
      (by decide) (by decide) (by decide) (by decide)).trans (by decide)
  · exact (h.2.2.2.2.1 (.elem "marginal" [("letter", "L1"), ("page", "3")] 2 []) "L1" "3"
      (by decide) (by decide) (by decide) (by decide) (by decide)).trans (by decide)
  · exact (h.2.2.2.2.1 (.elem "marginal" [("letter", "L1"), ("page", "3"), ("line", "5")] 2 [])
      "L1" "3" (by decide) (by decide) (by decide) (by decide) (by decide)).trans (by decide)
  · exact h.2.2.2.2.2.1 (.elem "marginal" [] 2 []) (Or.inl (by decide))

/-- C4: for every location map produced by merging the
transcription-derived and the tradition-derived maps, a (letter, page, line)
triple is in the merged map exactly when it is in one of the two independently
built maps — the merge is the per-(letter, page) set union and loses no
recorded entry. -/
theorem C4_merge_union (briefe_doc trad_doc : XML) (l p x : String) :
    hasLine (merge_page_line_maps (build_letter_page_line_map_brief briefe_doc)
        (build_letter_page_line_map_trad trad_doc)) l p x = true ↔
      (hasLine (build_letter_page_line_map_brief briefe_doc) l p x = true ∨
        hasLine (build_letter_page_line_map_trad trad_doc) l p x = true) := by
  rw [hasLine_merge]
  constructor
  · rintro (h | h)
    · exact Or.inl h
    · exact Or.inr (hasLine_of_occMem _ _ _ _ (lmWF_build_trad trad_doc) h)
  · rintro (h | h)
    · exact Or.inl h
    · exact Or.inr (occMem_of_hasLine _ _ _ _ h)

/-- C9 (implicit): in the transcription scan, a `letterText` element never
resets the current page — only a `page` element with a truthy index does.  So
a line marker with a truthy index occurring inside a letter-text block before
any truthy-indexed page marker of that block is recorded under the page that
was current when the block began: the (new letter, old page, line) triple
lands in the map.  The last conjunct ties the scan to the builder itself. -/
theorem C9_page_carries_across_blocks (as bs cs : List XML) (lt le : XML)
    (st0 : BriefScan) (L p ln : String)
    (hlt : lt.tag = "letterText") (hL : lt.get "letter" = some L) (hL0 : L ≠ "")
    (hbs : ∀ e ∈ bs, e.tag ≠ "letterText" ∧ (e.tag = "page" → truthy (e.get "index") = false))
    (hle : le.tag = "line") (hln : le.get "index" = some ln) (hln0 : ln ≠ "")
    (hp : (scan_brief as st0).current_page = some p) (hp0 : p ≠ "") :
    (∀ (st : BriefScan) (e : XML), e.tag = "letterText" →
      (brief_step st e).current_page = st.current_page) ∧
    hasLine (scan_brief (as ++ lt :: (bs ++ le :: cs)) st0).map L p ln = true ∧
    (∀ doc : XML, build_letter_page_line_map_brief doc =
      (scan_brief ((doc.findall "document").head?.getD doc).preorder ⟨none, none, []⟩).map) := by
  refine ⟨fun st e h => brief_step_letterText_page st e h, ?_, fun doc => rfl⟩
  have h1 : scan_brief (as ++ lt :: (bs ++ le :: cs)) st0 =
      scan_brief cs (brief_step (scan_brief bs (brief_step (scan_brief as st0) lt)) le) := by
    simp [scan_brief, List.foldl_append]
  rw [h1]
  apply hasLine_scan_brief_mono
  have hneutral := scan_brief_neutral bs (brief_step (scan_brief as st0) lt) hbs
  apply brief_step_line_records _ le L p ln hle ?_ ?_ hln hL0 hp0 hln0
  · rw [hneutral.1, brief_step_letterText_letter _ _ hlt, hL]
  · rw [hneutral.2, brief_step_letterText_page _ _ hlt, hp]

theorem C9_page_carries_across_blocks_witness :
    hasLine (scan_brief ([XML.elem "page" [("index", "10")] 1 []] ++
        (XML.elem "letterText" [("letter", "L2")] 2 []) ::
          ([XML.elem "note" [] 3 []] ++
            (XML.elem "line" [("index", "2")] 4 []) ::
              [XML.elem "page" [("index", "11")] 5 []]))
      ⟨none, none, []⟩).map "L2" "10" "2" = true :=
  (C9_page_carries_across_blocks [XML.elem "page" [("index", "10")] 1 []]
    [XML.elem "note" [] 3 []] [XML.elem "page" [("index", "11")] 5 []]
    (XML.elem "letterText" [("letter", "L2")] 2 [])
    (XML.elem "line" [("index", "2")] 4 []) ⟨none, none, []⟩ "L2" "10" "2"
    (by decide) (by decide) (by decide) (by decide) (by decide) (by decide) (by decide)
    (by decide) (by decide)).2.1

/-- When the element's subtree does contain a descriptive child, its processing
adds no missing-child violation at all, for any identifier. -/
theorem item_step_countMsg_lemma_present (msgs : ItemMsgs) (hd : DistinctMsgs msgs)
    (f : String) (st : ItemScan) (k : XML) (hlem : k.findall "lemma" ≠ []) (a : String) :
    countMsg (item_step msgs f st k).errors (msgs.missingLemma a) =
      countMsg st.errors (msgs.missingLemma a) := by
  have hne : (k.findall "lemma").isEmpty = false := by
    cases hfe : k.findall "lemma" with
    | nil => exact absurd hfe hlem
    | cons b l => simp
  have h1 : ¬ (msgs.missingId = msgs.missingLemma a) := hd.missingIdLemma a
  have h2 : ∀ b, ¬ (msgs.dupLocal b = msgs.missingLemma a) :=
    fun b => (hd.lemmaLoc a b).symm
  have h3 : ∀ b, ¬ (msgs.dupGlobal b = msgs.missingLemma a) :=
    fun b => (hd.lemmaGlob a b).symm
  simp only [item_step, hne, Bool.false_eq_true, if_false]
  split_ifs <;>
    simp [countMsg, List.countP_append, List.countP_cons, h1, h2 _, h3 _]

/-- C7: a commentary entry — and likewise a subsection — with a present
identifier but no `lemma` anywhere in its subtree yields a
missing-required-child violation, yet the identifier is still added to its
global pool and a later link `ref` to it resolves without violation; the lemma
search covers the whole subtree (an entry with a lemma anywhere among its
descendants adds no missing-child violation), independently of the duplicate
checks (the starting state is arbitrary in every conjunct). -/
theorem C7_missing_lemma_still_registered (xml_root : XML) (file_path : String)
    (st : GatherState) :
    (∀ (kom : XML) (id : String), kom ∈ xml_root.findall "kommentar" →
      kom.get "id" = some id → id ≠ "" →
      ((kom.findall "lemma") = [] →
        (⟨file_path, get_line_number kom, .kommentarMissingLemma id⟩ : Violation) ∈
          (gather_commentaries_and_subsections xml_root file_path st).errors) ∧
      (id ∈ (gather_commentaries_and_subsections xml_root file_path
        st).global_kommentar_ids) ∧
      (∀ (lfile : String) (link_elem : XML), link_elem.get "ref" = some id →
        truthy (link_elem.get "subref") = false →
        link_check
          (gather_commentaries_and_subsections xml_root file_path st).global_kommentar_ids
          (gather_commentaries_and_subsections xml_root file_path st).global_subsection_ids
          lfile link_elem = []) ∧
      ((∃ d ∈ kom.descendants, d.tag = "lemma") →
        ∀ (scan : ItemScan) (a : String),
          countMsg (item_step kommentar_msgs file_path scan kom).errors
              (Msg.kommentarMissingLemma a) =
            countMsg scan.errors (Msg.kommentarMissingLemma a))) ∧
    (∀ (sub : XML) (id : String), sub ∈ xml_root.findall "subsection" →
      sub.get "id" = some id → id ≠ "" →
      ((sub.findall "lemma") = [] →
        (⟨file_path, get_line_number sub, .subsectionMissingLemma id⟩ : Violation) ∈
          (gather_commentaries_and_subsections xml_root file_path st).errors) ∧
      (id ∈ (gather_commentaries_and_subsections xml_root file_path
        st).global_subsection_ids) ∧
      (∀ (lfile : String) (link_elem : XML), link_elem.get "ref" = some id →
        truthy (link_elem.get "subref") = false →
        link_check
          (gather_commentaries_and_subsections xml_root file_path st).global_kommentar_ids
          (gather_commentaries_and_subsections xml_root file_path st).global_subsection_ids
          lfile link_elem = []) ∧
      ((∃ d ∈ sub.descendants, d.tag = "lemma") →
        ∀ (scan : ItemScan) (a : String),
          countMsg (item_step subsection_msgs file_path scan sub).errors
              (Msg.subsectionMissingLemma a) =
            countMsg scan.errors (Msg.subsectionMissingLemma a))) := by
  constructor
  · intro kom id hk hid hid0
    have hpool : id ∈ (gather_commentaries_and_subsections xml_root file_path
        st).global_kommentar_ids := by
      unfold gather_commentaries_and_subsections
      exact item_fold_global_mem kommentar_msgs distinct_kommentar_msgs file_path id hid0
        hk hid _
    refine ⟨?_, hpool, ?_, ?_⟩
    · intro hnol
      unfold gather_commentaries_and_subsections
      exact (item_fold_errors_grow subsection_msgs file_path _ _).subset
        (item_fold_mem kommentar_msgs file_path hk _
          (fun st' => item_step_missingLemma_mem kommentar_msgs file_path st' kom id hid
            hid0 hnol) _)
    · intro lfile link_elem href hsub
      have htid : truthy (some id) = true := by simp [truthy, hid0]
      simp [link_check, href, htid, hsub, hpool]
    · intro hlem scan a
      have hne : kom.findall "lemma" ≠ [] := by
        obtain ⟨d, hd1, hd2⟩ := hlem
        intro hnil
        have hmemf : d ∈ kom.findall "lemma" := by
          rw [XML.findall]
          exact List.mem_filter.mpr ⟨hd1, by simp [hd2]⟩
        rw [hnil] at hmemf
        simp at hmemf
      exact item_step_countMsg_lemma_present kommentar_msgs distinct_kommentar_msgs
        file_path scan kom hne a
  · intro sub id hk hid hid0
    have hpool : id ∈ (gather_commentaries_and_subsections xml_root file_path
        st).global_subsection_ids := by
      unfold gather_commentaries_and_subsections
      exact item_fold_global_mem subsection_msgs distinct_subsection_msgs file_path id hid0
        hk hid _
    refine ⟨?_, hpool, ?_, ?_⟩
    · intro hnol
      unfold gather_commentaries_and_subsections
      exact item_fold_mem subsection_msgs file_path hk _
        (fun st' => item_step_missingLemma_mem subsection_msgs file_path st' sub id hid
          hid0 hnol) _
    · intro lfile link_elem href hsub
      have htid : truthy (some id) = true := by simp [truthy, hid0]
      simp [link_check, href, htid, hsub, hpool]
    · intro hlem scan a
      have hne : sub.findall "lemma" ≠ [] := by
        obtain ⟨d, hd1, hd2⟩ := hlem
        intro hnil
        have hmemf : d ∈ sub.findall "lemma" := by
          rw [XML.findall]
          exact List.mem_filter.mpr ⟨hd1, by simp [hd2]⟩
        rw [hnil] at hmemf
        simp at hmemf
      exact item_step_countMsg_lemma_present subsection_msgs distinct_subsection_msgs
        file_path scan sub hne a

theorem C7_missing_lemma_still_registered_witness :
    ((⟨"r.xml", some 2, .kommentarMissingLemma "K1"⟩ : Violation) ∈
      (gather_commentaries_and_subsections
        (.elem "register" [] 1 [.elem "kommentar" [("id", "K1")] 2 [],
          .elem "subsection" [("id", "S1")] 3 []]) "r.xml"
        ⟨[], [], []⟩).errors) ∧
    ((⟨"r.xml", some 3, .subsectionMissingLemma "S1"⟩ : Violation) ∈
      (gather_commentaries_and_subsections
        (.elem "register" [] 1 [.elem "kommentar" [("id", "K1")] 2 [],
          .elem "subsection" [("id", "S1")] 3 []]) "r.xml"
        ⟨[], [], []⟩).errors) ∧
    ("K1" ∈ (gather_commentaries_and_subsections
        (.elem "register" [] 1 [.elem "kommentar" [("id", "K1")] 2 [],
          .elem "subsection" [("id", "S1")] 3 []]) "r.xml"
        ⟨[], [], []⟩).global_kommentar_ids) ∧
    ("S1" ∈ (gather_commentaries_and_subsections
        (.elem "register" [] 1 [.elem "kommentar" [("id", "K1")] 2 [],
          .elem "subsection" [("id", "S1")] 3 []]) "r.xml"
        ⟨[], [], []⟩).global_subsection_ids) ∧
    (link_check
      (gather_commentaries_and_subsections
        (.elem "register" [] 1 [.elem "kommentar" [("id", "K1")] 2 [],
          .elem "subsection" [("id", "S1")] 3 []]) "r.xml"
        ⟨[], [], []⟩).global_kommentar_ids
      (gather_commentaries_and_subsections
        (.elem "register" [] 1 [.elem "kommentar" [("id", "K1")] 2 [],
          .elem "subsection" [("id", "S1")] 3 []]) "r.xml"
        ⟨[], [], []⟩).global_subsection_ids
      "briefe.xml" (.elem "link" [("ref", "K1")] 7 []) = []) ∧
    (link_check
      (gather_commentaries_and_subsections
        (.elem "register" [] 1 [.elem "kommentar" [("id", "K1")] 2 [],
          .elem "subsection" [("id", "S1")] 3 []]) "r.xml"
        ⟨[], [], []⟩).global_kommentar_ids
      (gather_commentaries_and_subsections
        (.elem "register" [] 1 [.elem "kommentar" [("id", "K1")] 2 [],
          .elem "subsection" [("id", "S1")] 3 []]) "r.xml"
        ⟨[], [], []⟩).global_subsection_ids
      "briefe.xml" (.elem "link" [("ref", "S1")] 8 []) = []) ∧
    (countMsg (item_step kommentar_msgs "r.xml" ⟨[], [], []⟩
        (.elem "kommentar" [("id", "K2")] 2 [.elem "x" [] 3 [.elem "lemma" [] 4 []]])).errors
        (Msg.kommentarMissingLemma "K2") =
      countMsg ([] : List Violation) (Msg.kommentarMissingLemma "K2")) ∧
    (countMsg (item_step subsection_msgs "r.xml" ⟨[], [], []⟩
        (.elem "subsection" [("id", "S2")] 5 [.elem "lemma" [] 6 []])).errors
        (Msg.subsectionMissingLemma "S2") =
      countMsg ([] : List Violation) (Msg.subsectionMissingLemma "S2")) := by
  have h := C7_missing_lemma_still_registered
    (.elem "register" [] 1 [.elem "kommentar" [("id", "K1")] 2 [],
      .elem "subsection" [("id", "S1")] 3 []]) "r.xml" ⟨[], [], []⟩
  have hK := h.1 (.elem "kommentar" [("id", "K1")] 2 []) "K1"
    (by decide) (by decide) (by decide)
  have hS := h.2 (.elem "subsection" [("id", "S1")] 3 []) "S1"
    (by decide) (by decide) (by decide)
  have h2 := C7_missing_lemma_still_registered
    (.elem "register" [] 1
      [.elem "kommentar" [("id", "K2")] 2 [.elem "x" [] 3 [.elem "lemma" [] 4 []]],
       .elem "subsection" [("id", "S2")] 5 [.elem "lemma" [] 6 []]]) "r.xml" ⟨[], [], []⟩
  have hK2 := h2.1 (.elem "kommentar" [("id", "K2")] 2 [.elem "x" [] 3 [.elem "lemma" [] 4 []]])
    "K2" (by decide) (by decide) (by decide)
  have hS2 := h2.2 (.elem "subsection" [("id", "S2")] 5 [.elem "lemma" [] 6 []])
    "S2" (by decide) (by decide) (by decide)
  refine ⟨hK.1 (by decide), hS.1 (by decide), hK.2.1, hS.2.1, ?_, ?_, ?_, ?_⟩
  · exact hK.2.2.1 "briefe.xml" (.elem "link" [("ref", "K1")] 7 []) (by decide) (by decide)
  · exact hS.2.2.1 "briefe.xml" (.elem "link" [("ref", "S1")] 8 []) (by decide) (by decide)
  · exact hK2.2.2.2 ⟨.elem "lemma" [] 4 [], by decide, by decide⟩ ⟨[], [], []⟩ "K2"
  · exact hS2.2.2.2 ⟨.elem "lemma" [] 6 [], by decide, by decide⟩ ⟨[], [], []⟩ "S2"

/-- Gathering preserves duplicate-freedom of both global pools. -/
theorem gather_pools_nodup (xml_root : XML) (f : String) (st : GatherState)
    (h1 : st.global_kommentar_ids.Nodup) (h2 : st.global_subsection_ids.Nodup) :
    (gather_commentaries_and_subsections xml_root f st).global_kommentar_ids.Nodup ∧
    (gather_commentaries_and_subsections xml_root f st).global_subsection_ids.Nodup := by
  unfold gather_commentaries_and_subsections
  exact ⟨item_fold_global_nodup kommentar_msgs f _ ⟨[], st.global_kommentar_ids, st.errors⟩ h1,
    item_fold_global_nodup subsection_msgs f _ ⟨[], st.global_subsection_ids, _⟩ h2⟩

/-- After processing any sequence of register documents from a state with
duplicate-free pools, both global pools stay duplicate-free. -/
theorem regs_fold_pools_nodup : ∀ (regs : List (String × XML)) (st : GatherState),
    st.global_kommentar_ids.Nodup → st.global_subsection_ids.Nodup →
    (regs.foldl (fun st r => gather_commentaries_and_subsections r.2 r.1 st)
      st).global_kommentar_ids.Nodup ∧
    (regs.foldl (fun st r => gather_commentaries_and_subsections r.2 r.1 st)
      st).global_subsection_ids.Nodup
  | [], st, hk, hs => ⟨hk, hs⟩
  | r :: regs, st, hk, hs => by
    rw [List.foldl_cons]
    obtain ⟨g1, g2⟩ := gather_pools_nodup r.2 r.1 st hk hs
    exact regs_fold_pools_nodup regs _ g1 g2

/-- C3: an identifier occurring exactly once in each of two register
documents yields exactly one duplicate-across-registers violation, ends up in
the global commentary pool exactly once, and a later link `ref` to it resolves
without violation.  And for any sequence of register documents, every
identifier is in each global pool at most once no matter how many duplicate
violations were raised. -/
theorem C3_duplicate_across_registers (r1 r2 : XML) (f1 f2 : String) (id : String)
    (hid : id ≠ "")
    (h1 : idOcc id (r1.findall "kommentar") = 1)
    (h2 : idOcc id (r2.findall "kommentar") = 1) :
    (countMsg (gather_commentaries_and_subsections r2 f2
        (gather_commentaries_and_subsections r1 f1 ⟨[], [], []⟩)).errors
        (Msg.dupKommentarGlobal id) = 1) ∧
    ((gather_commentaries_and_subsections r2 f2
        (gather_commentaries_and_subsections r1 f1 ⟨[], [], []⟩)).global_kommentar_ids.count
        id = 1) ∧
    (∀ (lfile : String) (link_elem : XML), link_elem.get "ref" = some id →
      truthy (link_elem.get "subref") = false →
      link_check
        (gather_commentaries_and_subsections r2 f2
          (gather_commentaries_and_subsections r1 f1 ⟨[], [], []⟩)).global_kommentar_ids
        (gather_commentaries_and_subsections r2 f2
          (gather_commentaries_and_subsections r1 f1 ⟨[], [], []⟩)).global_subsection_ids
        lfile link_elem = []) ∧
    (∀ (regs : List (String × XML)) (x : String),
      (regs.foldl (fun st r => gather_commentaries_and_subsections r.2 r.1 st)
        ⟨[], [], []⟩).global_kommentar_ids.count x ≤ 1 ∧
      (regs.foldl (fun st r => gather_commentaries_and_subsections r.2 r.1 st)
        ⟨[], [], []⟩).global_subsection_ids.count x ≤ 1) := by
  obtain ⟨a1, a2, a3, a4⟩ :=
    gather_kommentar_spec r1 f1 ⟨[], [], []⟩ id hid
  obtain ⟨b1, b2, b3, b4⟩ :=
    gather_kommentar_spec r2 f2 (gather_commentaries_and_subsections r1 f1 ⟨[], [], []⟩)
      id hid
  have hmem1 : id ∈ (gather_commentaries_and_subsections r1 f1
      ⟨[], [], []⟩).global_kommentar_ids := by
    rw [a4, h1]
    simp
  have ha2 : countMsg (gather_commentaries_and_subsections r1 f1 ⟨[], [], []⟩).errors
      (Msg.dupKommentarGlobal id) = 0 := by
    rw [h1] at a2
    simpa [countMsg] using a2
  have hcount2 : countMsg (gather_commentaries_and_subsections r2 f2
      (gather_commentaries_and_subsections r1 f1 ⟨[], [], []⟩)).errors
      (Msg.dupKommentarGlobal id) = 1 := by
    rw [b2, if_pos hmem1, h2, ha2]
  have ha3 : (gather_commentaries_and_subsections r1 f1
      ⟨[], [], []⟩).global_kommentar_ids.count id = 1 := by
    rw [h1] at a3
    simpa using a3
  have hpool2 : (gather_commentaries_and_subsections r2 f2
      (gather_commentaries_and_subsections r1 f1 ⟨[], [], []⟩)).global_kommentar_ids.count
      id = 1 := by
    rw [b3, if_pos (Or.inl hmem1), ha3]
  have hmem2 : id ∈ (gather_commentaries_and_subsections r2 f2
      (gather_commentaries_and_subsections r1 f1 ⟨[], [], []⟩)).global_kommentar_ids := by
    rw [b4]
    exact Or.inl hmem1
  refine ⟨hcount2, hpool2, ?_, ?_⟩
  · intro lfile link_elem href hsub
    have htid : truthy (some id) = true := by simp [truthy, hid]
    simp [link_check, href, htid, hsub, hmem2]
  · intro regs x
    obtain ⟨g1, g2⟩ :=
      regs_fold_pools_nodup regs ⟨[], [], []⟩ List.nodup_nil List.nodup_nil
    exact ⟨List.nodup_iff_count_le_one.mp g1 x, List.nodup_iff_count_le_one.mp g2 x⟩

theorem C3_duplicate_across_registers_witness :
    idOcc "K1" ((XML.elem "register" [] 1
        [XML.elem "kommentar" [("id", "K1")] 2
          [XML.elem "lemma" [] 3 []]]).findall "kommentar") = 1 ∧
    (countMsg (gather_commentaries_and_subsections
        (.elem "register2" [] 1 [.elem "kommentar" [("id", "K1")] 2 [.elem "lemma" [] 3 []]])
        "r2.xml"
        (gather_commentaries_and_subsections
          (.elem "register" [] 1 [.elem "kommentar" [("id", "K1")] 2 [.elem "lemma" [] 3 []]])
          "r1.xml" ⟨[], [], []⟩)).errors
        (Msg.dupKommentarGlobal "K1") = 1) ∧
    ((gather_commentaries_and_subsections
        (.elem "register2" [] 1 [.elem "kommentar" [("id", "K1")] 2 [.elem "lemma" [] 3 []]])
        "r2.xml"
        (gather_commentaries_and_subsections
          (.elem "register" [] 1 [.elem "kommentar" [("id", "K1")] 2 [.elem "lemma" [] 3 []]])
          "r1.xml" ⟨[], [], []⟩)).global_kommentar_ids.count "K1" = 1) ∧
    (link_check
        (gather_commentaries_and_subsections
          (.elem "register2" [] 1 [.elem "kommentar" [("id", "K1")] 2 [.elem "lemma" [] 3 []]])
          "r2.xml"
          (gather_commentaries_and_subsections
            (.elem "register" [] 1 [.elem "kommentar" [("id", "K1")] 2 [.elem "lemma" [] 3 []]])
            "r1.xml" ⟨[], [], []⟩)).global_kommentar_ids
        (gather_commentaries_and_subsections
          (.elem "register2" [] 1 [.elem "kommentar" [("id", "K1")] 2 [.elem "lemma" [] 3 []]])
          "r2.xml"
          (gather_commentaries_and_subsections
            (.elem "register" [] 1 [.elem "kommentar" [("id", "K1")] 2 [.elem "lemma" [] 3 []]])
            "r1.xml" ⟨[], [], []⟩)).global_subsection_ids
        "meta.xml" (.elem "link" [("ref", "K1")] 5 []) = []) := by
  have h := C3_duplicate_across_registers
    (.elem "register" [] 1 [.elem "kommentar" [("id", "K1")] 2 [.elem "lemma" [] 3 []]])
    (.elem "register2" [] 1 [.elem "kommentar" [("id", "K1")] 2 [.elem "lemma" [] 3 []]])
    "r1.xml" "r2.xml" "K1" (by decide) (by decide) (by decide)
  exact ⟨by decide, h.1, h.2.1,
    h.2.2.1 "meta.xml" (.elem "link" [("ref", "K1")] 5 []) (by decide) (by decide)⟩

/-- C10 (implicit): when the same identifier occurs twice within a single
register document, the second occurrence appends both the in-this-file and the
across-multiple-registers duplicate violations (the global-pool check runs
against a pool already holding the identifier from the first occurrence), the
same for subsection identifiers, and each pool still holds its identifier
exactly once. -/
theorem C10_double_duplicate_report (r : XML) (f : String) (kid sid : String)
    (hkid : kid ≠ "") (hsid : sid ≠ "")
    (hk2 : idOcc kid (r.findall "kommentar") = 2)
    (hs2 : idOcc sid (r.findall "subsection") = 2) :
    countMsg (gather_commentaries_and_subsections r f ⟨[], [], []⟩).errors
      (Msg.dupKommentarLocal kid) = 1 ∧
    countMsg (gather_commentaries_and_subsections r f ⟨[], [], []⟩).errors
      (Msg.dupKommentarGlobal kid) = 1 ∧
    (gather_commentaries_and_subsections r f ⟨[], [], []⟩).global_kommentar_ids.count
      kid = 1 ∧
    countMsg (gather_commentaries_and_subsections r f ⟨[], [], []⟩).errors
      (Msg.dupSubsectionLocal sid) = 1 ∧
    countMsg (gather_commentaries_and_subsections r f ⟨[], [], []⟩).errors
      (Msg.dupSubsectionGlobal sid) = 1 ∧
    (gather_commentaries_and_subsections r f ⟨[], [], []⟩).global_subsection_ids.count
      sid = 1 := by
  obtain ⟨a1, a2, a3, a4⟩ := gather_kommentar_spec r f ⟨[], [], []⟩ kid hkid
  obtain ⟨b1, b2, b3, b4⟩ := gather_subsection_spec r f ⟨[], [], []⟩ sid hsid
  rw [hk2] at a1 a2 a3
  rw [hs2] at b1 b2 b3
  simp only [List.not_mem_nil, false_or, if_neg (List.not_mem_nil kid)] at a1 a2 a3
  simp only [List.not_mem_nil, false_or, if_neg (List.not_mem_nil sid)] at b1 b2 b3
  refine ⟨?_, ?_, ?_, ?_, ?_, ?_⟩
  · rw [a1]; rfl
  · rw [a2]; rfl
  · rw [a3]
    simp [List.count_nil]
  · rw [b1]; rfl
  · rw [b2]; rfl
  · rw [b3]
    simp [List.count_nil]

theorem C10_double_duplicate_report_witness :
    countMsg (gather_commentaries_and_subsections
        (.elem "register" [] 1
          [.elem "kommentar" [("id", "K1")] 2 [.elem "lemma" [] 3 []],
            .elem "kommentar" [("id", "K1")] 4 [.elem "lemma" [] 5 []],
            .elem "subsection" [("id", "S1")] 6 [.elem "lemma" [] 7 []],
            .elem "subsection" [("id", "S1")] 8 [.elem "lemma" [] 9 []]])
        "r.xml" ⟨[], [], []⟩).errors (Msg.dupKommentarLocal "K1") = 1 ∧
    countMsg (gather_commentaries_and_subsections
        (.elem "register" [] 1
          [.elem "kommentar" [("id", "K1")] 2 [.elem "lemma" [] 3 []],
            .elem "kommentar" [("id", "K1")] 4 [.elem "lemma" [] 5 []],
            .elem "subsection" [("id", "S1")] 6 [.elem "lemma" [] 7 []],
            .elem "subsection" [("id", "S1")] 8 [.elem "lemma" [] 9 []]])
        "r.xml" ⟨[], [], []⟩).errors (Msg.dupKommentarGlobal "K1") = 1 ∧
    countMsg (gather_commentaries_and_subsections
        (.elem "register" [] 1
          [.elem "kommentar" [("id", "K1")] 2 [.elem "lemma" [] 3 []],
            .elem "kommentar" [("id", "K1")] 4 [.elem "lemma" [] 5 []],
            .elem "subsection" [("id", "S1")] 6 [.elem "lemma" [] 7 []],
            .elem "subsection" [("id", "S1")] 8 [.elem "lemma" [] 9 []]])
        "r.xml" ⟨[], [], []⟩).errors (Msg.dupSubsectionLocal "S1") = 1 ∧
    (gather_commentaries_and_subsections
        (.elem "register" [] 1
          [.elem "kommentar" [("id", "K1")] 2 [.elem "lemma" [] 3 []],
            .elem "kommentar" [("id", "K1")] 4 [.elem "lemma" [] 5 []],
            .elem "subsection" [("id", "S1")] 6 [.elem "lemma" [] 7 []],
            .elem "subsection" [("id", "S1")] 8 [.elem "lemma" [] 9 []]])
        "r.xml" ⟨[], [], []⟩).global_kommentar_ids.count "K1" = 1 := by
  have h := C10_double_duplicate_report
    (.elem "register" [] 1
      [.elem "kommentar" [("id", "K1")] 2 [.elem "lemma" [] 3 []],
        .elem "kommentar" [("id", "K1")] 4 [.elem "lemma" [] 5 []],
        .elem "subsection" [("id", "S1")] 6 [.elem "lemma" [] 7 []],
        .elem "subsection" [("id", "S1")] 8 [.elem "lemma" [] 9 []]])
    "r.xml" "K1" "S1" (by decide) (by decide) (by decide) (by decide)
  exact ⟨h.1, h.2.1, h.2.2.2.1, h.2.2.1⟩

/-- Folding an errors-appending body over a list is appending the
concatenation of the per-element contributions. -/
theorem foldl_append_of_shape {α β : Type} (g : List β → α → List β) (f : α → List β)
    (hg : ∀ (acc : List β) (a : α), g acc a = acc ++ f a) :
    ∀ (xs : List α) (acc : List β), xs.foldl g acc = acc ++ xs.flatMap f := by
  intro xs
  induction xs with
  | nil => intro acc; simp
  | cons x xs ih => intro acc; simp [List.foldl_cons, hg, ih]

/-- C6 counterexample: the claim says every `hand`/`edit`/`app` element
*anywhere in the respective document* with a present unresolvable ref is
reported.  But the validator only iterates `hand`/`edit` inside `letterText`
blocks and `app`/`hand` inside `letterTradition` blocks: on a transcription
document holding a `hand` element with unresolvable ref outside any
`letterText`, the whole run reports nothing. -/
theorem C6_counterexample :
    validate_references
      { meta_file := "meta.xml", references_file := "references.xml",
        briefe_file := "briefe.xml", edits_file := "edits.xml",
        traditions_file := "traditions.xml", marginalien_file := "marginal.xml",
        meta_xml := .elem "meta" [] 1 [.elem "letterDesc" [("letter", "L1")] 2 []],
        references_xml := .elem "refs" [] 1 [.elem "handDef" [("index", "H1")] 2 []],
        briefe_xml := .elem "briefe" [] 1
          [.elem "document" [] 2
            [.elem "hand" [("ref", "H9")] 3 [],
              .elem "letterText" [("letter", "L1")] 4 []]],
        edits_xml := .elem "edits" [] 1 [],
        traditions_xml := .elem "traditions" [] 1 [],
        marginalien_xml := .elem "marginalien" [] 1 [],
        register_trees := [] } = [] ∧
    (XML.elem "hand" [("ref", "H9")] 3 []) ∈
      (XML.elem "briefe" [] 1
        [.elem "document" [] 2
          [.elem "hand" [("ref", "H9")] 3 [],
            .elem "letterText" [("letter", "L1")] 4 []]]).findall "hand" ∧
    truthy ((XML.elem "hand" [("ref", "H9")] 3 []).get "ref") = true ∧
    (XML.elem "hand" [("ref", "H9")] 3 []).get "ref" ∉
      hand_refs (.elem "refs" [] 1 [.elem "handDef" [("index", "H1")] 2 []]) := by
  refine ⟨?_, by decide, by decide, by decide⟩
  decide

/-- C6 amended: every `hand` or `edit` element *inside a `letterText`
block* of the transcription document, and every `app` or `hand` element
*inside a `letterTradition` block* of the tradition document, whose ref is
present (truthy) and unresolvable, is reported by the corresponding phase of
the validator. -/
theorem C6_hand_edit_app_refs (letters hands edits apps : List (Option String))
    (briefe_file traditions_file : String) :
    (∀ (briefe_xml : XML) (errors : List Violation) (lt h : XML),
      lt ∈ briefe_xml.findall "letterText" → h ∈ lt.findall "hand" →
      truthy (h.get "ref") = true → h.get "ref" ∉ hands →
      (⟨briefe_file, get_line_number h,
          .invalidHandBrief ((h.get "ref").getD "") (lt.get "letter")⟩ : Violation) ∈
        (briefe_xml.findall "letterText").foldl
          (fun errs lt => errs ++ letterText_check letters hands edits briefe_file lt)
          errors) ∧
    (∀ (briefe_xml : XML) (errors : List Violation) (lt e : XML),
      lt ∈ briefe_xml.findall "letterText" → e ∈ lt.findall "edit" →
      truthy (e.get "ref") = true → e.get "ref" ∉ edits →
      (⟨briefe_file, get_line_number e,
          .invalidEditRef ((e.get "ref").getD "") (lt.get "letter")⟩ : Violation) ∈
        (briefe_xml.findall "letterText").foldl
          (fun errs lt => errs ++ letterText_check letters hands edits briefe_file lt)
          errors) ∧
    (∀ (traditions_xml : XML) (errors : List Violation) (tr a : XML),
      tr ∈ traditions_xml.findall "letterTradition" → a ∈ tr.findall "app" →
      truthy (a.get "ref") = true → a.get "ref" ∉ apps →
      (⟨traditions_file, get_line_number a,
          .invalidAppRef ((a.get "ref").getD "") (tr.get "letter")⟩ : Violation) ∈
        (traditions_xml.findall "letterTradition").foldl
          (fun errs tr => errs ++ letterTradition_check letters apps hands traditions_file tr)
          errors) ∧
    (∀ (traditions_xml : XML) (errors : List Violation) (tr h : XML),
      tr ∈ traditions_xml.findall "letterTradition" → h ∈ tr.findall "hand" →
      truthy (h.get "ref") = true → h.get "ref" ∉ hands →
      (⟨traditions_file, get_line_number h,
          .invalidHandTrad ((h.get "ref").getD "") (tr.get "letter")⟩ : Violation) ∈
        (traditions_xml.findall "letterTradition").foldl
          (fun errs tr => errs ++ letterTradition_check letters apps hands traditions_file tr)
          errors) := by
  refine ⟨?_, ?_, ?_, ?_⟩
  · intro briefe_xml errors lt h hlt hh ht hm
    rw [foldl_append_flatMap]
    refine List.mem_append_right _ (List.mem_flatMap.mpr ⟨lt, hlt, ?_⟩)
    unfold letterText_check
    refine List.mem_append_left _ (List.mem_append_right _ (List.mem_flatMap.mpr ⟨h, hh, ?_⟩))
    simp [hand_check_brief, ht, hm]
  · intro briefe_xml errors lt e hlt he ht hm
    rw [foldl_append_flatMap]
    refine List.mem_append_right _ (List.mem_flatMap.mpr ⟨lt, hlt, ?_⟩)
    unfold letterText_check
    refine List.mem_append_right _ (List.mem_flatMap.mpr ⟨e, he, ?_⟩)
    simp [edit_check, ht, hm]
  · intro traditions_xml errors tr a htr ha ht hm
    rw [foldl_append_flatMap]
    refine List.mem_append_right _ (List.mem_flatMap.mpr ⟨tr, htr, ?_⟩)
    unfold letterTradition_check
    refine List.mem_append_left _ (List.mem_append_right _ (List.mem_flatMap.mpr ⟨a, ha, ?_⟩))
    simp [app_check, ht, hm]
  · intro traditions_xml errors tr h htr hh ht hm
    rw [foldl_append_flatMap]
    refine List.mem_append_right _ (List.mem_flatMap.mpr ⟨tr, htr, ?_⟩)
    unfold letterTradition_check
    refine List.mem_append_right _ (List.mem_flatMap.mpr ⟨h, hh, ?_⟩)
    simp [hand_check_trad, ht, hm]

theorem C6_hand_edit_app_refs_witness :
    ((⟨"briefe.xml", some 3, .invalidHandBrief "H9" (some "L1")⟩ : Violation) ∈
      ((XML.elem "briefe" [] 1
        [.elem "letterText" [("letter", "L1")] 2
          [.elem "hand" [("ref", "H9")] 3 [],
            .elem "edit" [("ref", "E9")] 4 []]]).findall "letterText").foldl
        (fun errs lt =>
          errs ++ letterText_check [some "L1"] [some "H1"] [some "E1"] "briefe.xml" lt)
        []) ∧
    ((⟨"briefe.xml", some 4, .invalidEditRef "E9" (some "L1")⟩ : Violation) ∈
      ((XML.elem "briefe" [] 1
        [.elem "letterText" [("letter", "L1")] 2
          [.elem "hand" [("ref", "H9")] 3 [],
            .elem "edit" [("ref", "E9")] 4 []]]).findall "letterText").foldl
        (fun errs lt =>
          errs ++ letterText_check [some "L1"] [some "H1"] [some "E1"] "briefe.xml" lt)
        []) ∧
    ((⟨"traditions.xml", some 3, .invalidAppRef "A9" (some "L1")⟩ : Violation) ∈
      ((XML.elem "traditions" [] 1
        [.elem "letterTradition" [("letter", "L1")] 2
          [.elem "app" [("ref", "A9")] 3 [],
            .elem "hand" [("ref", "H9")] 4 []]]).findall "letterTradition").foldl
        (fun errs tr =>
          errs ++ letterTradition_check [some "L1"] [some "A1"] [some "H1"] "traditions.xml" tr)
        []) ∧
    ((⟨"traditions.xml", some 4, .invalidHandTrad "H9" (some "L1")⟩ : Violation) ∈
      ((XML.elem "traditions" [] 1
        [.elem "letterTradition" [("letter", "L1")] 2
          [.elem "app" [("ref", "A9")] 3 [],
            .elem "hand" [("ref", "H9")] 4 []]]).findall "letterTradition").foldl
        (fun errs tr =>
          errs ++ letterTradition_check [some "L1"] [some "A1"] [some "H1"] "traditions.xml" tr)
        []) := by
  have h := C6_hand_edit_app_refs [some "L1"] [some "H1"] [some "E1"] [some "A1"]
    "briefe.xml" "traditions.xml"
  have h2 := C6_hand_edit_app_refs [some "L1"] [some "H1"] [some "E1"] [some "A1"]
    "briefe.xml" "traditions.xml"
  refine ⟨?_, ?_, ?_, ?_⟩
  · exact h.1 (.elem "briefe" [] 1
      [.elem "letterText" [("letter", "L1")] 2
        [.elem "hand" [("ref", "H9")] 3 [], .elem "edit" [("ref", "E9")] 4 []]]) []
      (.elem "letterText" [("letter", "L1")] 2
        [.elem "hand" [("ref", "H9")] 3 [], .elem "edit" [("ref", "E9")] 4 []])
      (.elem "hand" [("ref", "H9")] 3 []) (by decide) (by decide) (by decide) (by decide)
  · exact h.2.1 (.elem "briefe" [] 1
      [.elem "letterText" [("letter", "L1")] 2
        [.elem "hand" [("ref", "H9")] 3 [], .elem "edit" [("ref", "E9")] 4 []]]) []
      (.elem "letterText" [("letter", "L1")] 2
        [.elem "hand" [("ref", "H9")] 3 [], .elem "edit" [("ref", "E9")] 4 []])
      (.elem "edit" [("ref", "E9")] 4 []) (by decide) (by decide) (by decide) (by decide)
  · exact h2.2.2.1 (.elem "traditions" [] 1
      [.elem "letterTradition" [("letter", "L1")] 2
        [.elem "app" [("ref", "A9")] 3 [], .elem "hand" [("ref", "H9")] 4 []]]) []
      (.elem "letterTradition" [("letter", "L1")] 2
        [.elem "app" [("ref", "A9")] 3 [], .elem "hand" [("ref", "H9")] 4 []])
      (.elem "app" [("ref", "A9")] 3 []) (by decide) (by decide) (by decide) (by decide)
  · exact h2.2.2.2 (.elem "traditions" [] 1
      [.elem "letterTradition" [("letter", "L1")] 2
        [.elem "app" [("ref", "A9")] 3 [], .elem "hand" [("ref", "H9")] 4 []]]) []
      (.elem "letterTradition" [("letter", "L1")] 2
        [.elem "app" [("ref", "A9")] 3 [], .elem "hand" [("ref", "H9")] 4 []])
      (.elem "hand" [("ref", "H9")] 4 []) (by decide) (by decide) (by decide) (by decide)

theorem ite_singleton_ne_nil {α : Type} (v : α) (c : Prop) [Decidable c] :
    ((if c then [v] else []) ≠ []) ↔ c := by
  split_ifs with h <;> simp [h]

/-- C5: for every checked optional reference attribute — sender, receiver
and location refs of the metadata document, the letter attribute of letterText
and letterTradition blocks, hand, edit and apparatus refs, and link
ref/subref — an element whose attribute is absent (or empty: the script's
truthiness treats `""` like an absent attribute) never produces a violation,
and a violation is recorded exactly when the attribute is present (truthy) and
unresolvable in the corresponding identifier set. -/
theorem C5_optional_refs (persons locations hands edits apps letters : List (Option String))
    (gk gs : List String) (mf bf tf lf : String) :
    (∀ (lid : Option String) (s : XML),
      sender_check persons mf lid s ≠ [] ↔
        (truthy (s.get "ref") = true ∧ s.get "ref" ∉ persons)) ∧
    (∀ (lid : Option String) (s : XML),
      receiver_check persons mf lid s ≠ [] ↔
        (truthy (s.get "ref") = true ∧ s.get "ref" ∉ persons)) ∧
    (∀ letter : XML, letter.findall "sender" = [] → letter.findall "receiver" = [] →
      (letter.findall "location").head? = none →
      letterDesc_check persons locations mf letter = []) ∧
    (∀ (letter loc : XML), letter.findall "sender" = [] → letter.findall "receiver" = [] →
      (letter.findall "location").head? = some loc →
      (letterDesc_check persons locations mf letter ≠ [] ↔
        (truthy (loc.get "ref") = true ∧ loc.get "ref" ∉ locations))) ∧
    (∀ lt : XML, lt.findall "hand" = [] → lt.findall "edit" = [] →
      (letterText_check letters hands edits bf lt ≠ [] ↔
        (truthy (lt.get "letter") = true ∧ lt.get "letter" ∉ letters))) ∧
    (∀ (lid : Option String) (h : XML),
      hand_check_brief hands bf lid h ≠ [] ↔
        (truthy (h.get "ref") = true ∧ h.get "ref" ∉ hands)) ∧
    (∀ (lid : Option String) (e : XML),
      edit_check edits bf lid e ≠ [] ↔
        (truthy (e.get "ref") = true ∧ e.get "ref" ∉ edits)) ∧
    (∀ tr : XML, tr.findall "app" = [] → tr.findall "hand" = [] →
      (letterTradition_check letters apps hands tf tr ≠ [] ↔
        (truthy (tr.get "letter") = true ∧ tr.get "letter" ∉ letters))) ∧
    (∀ (lid : Option String) (a : XML),
      app_check apps tf lid a ≠ [] ↔
        (truthy (a.get "ref") = true ∧ a.get "ref" ∉ apps)) ∧
    (∀ (lid : Option String) (h : XML),
      hand_check_trad hands tf lid h ≠ [] ↔
        (truthy (h.get "ref") = true ∧ h.get "ref" ∉ hands)) ∧
    (∀ e : XML, truthy (e.get "subref") = false →
      (link_check gk gs lf e ≠ [] ↔
        (truthy (e.get "ref") = true ∧ (e.get "ref").getD "" ∉ gk ∧
          (e.get "ref").getD "" ∉ gs))) ∧
    (∀ e : XML, truthy (e.get "ref") = false →
      (link_check gk gs lf e ≠ [] ↔
        (truthy (e.get "subref") = true ∧ (e.get "subref").getD "" ∉ gs))) := by
  refine ⟨?_, ?_, ?_, ?_, ?_, ?_, ?_, ?_, ?_, ?_, ?_, ?_⟩
  · intro lid s
    simp only [sender_check]
    rw [ite_singleton_ne_nil]
    simp
  · intro lid s
    simp only [receiver_check]
    rw [ite_singleton_ne_nil]
    simp
  · intro letter hs hr hloc
    simp [letterDesc_check, hs, hr, hloc]
  · intro letter loc hs hr hloc
    simp only [letterDesc_check, hs, hr, hloc, List.flatMap_nil, List.nil_append]
    rw [ite_singleton_ne_nil]
    simp
  · intro lt hh he
    simp only [letterText_check, hh, he, List.flatMap_nil, List.append_nil]
    rw [ite_singleton_ne_nil]
    simp
  · intro lid h
    simp only [hand_check_brief]
    rw [ite_singleton_ne_nil]
    simp
  · intro lid e
    simp only [edit_check]
    rw [ite_singleton_ne_nil]
    simp
  · intro tr ha hh
    simp only [letterTradition_check, ha, hh, List.flatMap_nil, List.append_nil]
    rw [ite_singleton_ne_nil]
    simp
  · intro lid a
    simp only [app_check]
    rw [ite_singleton_ne_nil]
    simp
  · intro lid h
    simp only [hand_check_trad]
    rw [ite_singleton_ne_nil]
    simp
  · intro e hsub
    simp only [link_check, hsub, Bool.false_and, Bool.false_eq_true, if_false,
      List.append_nil]
    rw [ite_singleton_ne_nil]
    simp [and_assoc]
  · intro e href
    simp only [link_check, href, Bool.false_and, Bool.false_eq_true, if_false,
      List.nil_append]
    rw [ite_singleton_ne_nil]
    simp

theorem C5_optional_refs_witness :
    (sender_check [some "P1"] "meta.xml" (some "L1")
      (.elem "sender" [("ref", "P9")] 2 []) ≠ []) ∧
    (receiver_check [some "P1"] "meta.xml" (some "L1")
      (.elem "receiver" [("ref", "P9")] 2 []) ≠ []) ∧
    (letterDesc_check [some "P1"] [some "O1"] "meta.xml"
      (.elem "letterDesc" [("letter", "L1")] 2 []) = []) ∧
    (letterDesc_check [some "P1"] [some "O1"] "meta.xml"
      (.elem "letterDesc" [("letter", "L1")] 2
        [.elem "location" [("ref", "O9")] 3 []]) ≠ []) ∧
    (letterText_check [some "L1"] [some "H1"] [some "E1"] "briefe.xml"
      (.elem "letterText" [("letter", "L9")] 2 []) ≠ []) ∧
    (hand_check_brief [some "H1"] "briefe.xml" (some "L1")
      (.elem "hand" [("ref", "H9")] 2 []) ≠ []) ∧
    (edit_check [some "E1"] "briefe.xml" (some "L1")
      (.elem "edit" [("ref", "E9")] 2 []) ≠ []) ∧
    (letterTradition_check [some "L1"] [some "A1"] [some "H1"] "traditions.xml"
      (.elem "letterTradition" [("letter", "L9")] 2 []) ≠ []) ∧
    (app_check [some "A1"] "traditions.xml" (some "L1")
      (.elem "app" [("ref", "A9")] 2 []) ≠ []) ∧
    (hand_check_trad [some "H1"] "traditions.xml" (some "L1")
      (.elem "hand" [("ref", "H9")] 2 []) ≠ []) ∧
    (link_check ["K1"] ["S1"] "meta.xml" (.elem "link" [("ref", "K9")] 2 []) ≠ []) ∧
    (link_check ["K1"] ["S1"] "meta.xml" (.elem "link" [("subref", "S9")] 2 []) ≠ []) := by
  have h := C5_optional_refs [some "P1"] [some "O1"] [some "H1"] [some "E1"] [some "A1"]
    [some "L1"] ["K1"] ["S1"] "meta.xml" "briefe.xml" "traditions.xml" "meta.xml"
  refine ⟨?_, ?_, ?_, ?_, ?_, ?_, ?_, ?_, ?_, ?_, ?_, ?_⟩
  · exact (h.1 (some "L1") (.elem "sender" [("ref", "P9")] 2 [])).mpr
      ⟨by decide, by decide⟩
  · exact (h.2.1 (some "L1") (.elem "receiver" [("ref", "P9")] 2 [])).mpr
      ⟨by decide, by decide⟩
  · exact h.2.2.1 (.elem "letterDesc" [("letter", "L1")] 2 []) (by decide) (by decide)
      (by decide)
  · exact (h.2.2.2.1 (.elem "letterDesc" [("letter", "L1")] 2
      [.elem "location" [("ref", "O9")] 3 []]) (.elem "location" [("ref", "O9")] 3 [])
      (by decide) (by decide) (by decide)).mpr ⟨by decide, by decide⟩
  · exact (h.2.2.2.2.1 (.elem "letterText" [("letter", "L9")] 2 []) (by decide)
      (by decide)).mpr ⟨by decide, by decide⟩
  · exact (h.2.2.2.2.2.1 (some "L1") (.elem "hand" [("ref", "H9")] 2 [])).mpr
      ⟨by decide, by decide⟩
  · exact (h.2.2.2.2.2.2.1 (some "L1") (.elem "edit" [("ref", "E9")] 2 [])).mpr
      ⟨by decide, by decide⟩
  · exact (h.2.2.2.2.2.2.2.1 (.elem "letterTradition" [("letter", "L9")] 2 []) (by decide)
      (by decide)).mpr ⟨by decide, by decide⟩
  · exact (h.2.2.2.2.2.2.2.2.1 (some "L1") (.elem "app" [("ref", "A9")] 2 [])).mpr
      ⟨by decide, by decide⟩
  · exact (h.2.2.2.2.2.2.2.2.2.1 (some "L1") (.elem "hand" [("ref", "H9")] 2 [])).mpr
      ⟨by decide, by decide⟩
  · exact (h.2.2.2.2.2.2.2.2.2.2.1 (.elem "link" [("ref", "K9")] 2 []) (by decide)).mpr
      ⟨by decide, by decide, by decide⟩
  · exact (h.2.2.2.2.2.2.2.2.2.2.2 (.elem "link" [("subref", "S9")] 2 []) (by decide)).mpr
      ⟨by decide, by decide⟩

/-- C8: the violation list is a pure function of the parsed input
documents, and it is the concatenation, in fixed phase order, of per-element
contributions taken in document (findall) order — sets are consulted only
through membership, never iterated, so no iteration order can leak into the
output; running the validator twice on equal inputs yields identical output. -/
theorem C8_deterministic_traversal_order (inp : ValidatorInput) :
    (validate_references inp =
      (inp.register_trees.foldl
        (fun st r => gather_commentaries_and_subsections r.2 r.1 st)
        ⟨[], [], []⟩).errors ++
      ((inp.meta_xml.findall "letterDesc").flatMap
        (letterDesc_check (person_refs inp.references_xml)
          (location_refs inp.references_xml) inp.meta_file) ++
      ((inp.briefe_xml.findall "letterText").flatMap
        (letterText_check (letter_refs inp.meta_xml) (hand_refs inp.references_xml)
          (edit_refs inp.edits_xml) inp.briefe_file) ++
      ((inp.traditions_xml.findall "letterTradition").flatMap
        (letterTradition_check (letter_refs inp.meta_xml) (app_refs inp.references_xml)
          (hand_refs inp.references_xml) inp.traditions_file) ++
      ((inp.traditions_xml.findall "intlink").flatMap
        (intlink_check
          (merge_page_line_maps (build_letter_page_line_map_brief inp.briefe_xml)
            (build_letter_page_line_map_trad inp.traditions_xml))
          (letter_refs inp.meta_xml) inp.traditions_file) ++
      ((inp.marginalien_xml.findall "intlink").flatMap
        (intlink_check
          (merge_page_line_maps (build_letter_page_line_map_brief inp.briefe_xml)
            (build_letter_page_line_map_trad inp.traditions_xml))
          (letter_refs inp.meta_xml) inp.marginalien_file) ++
      (inp.register_trees.flatMap (fun r => (r.2.findall "intlink").flatMap
        (intlink_check
          (merge_page_line_maps (build_letter_page_line_map_brief inp.briefe_xml)
            (build_letter_page_line_map_trad inp.traditions_xml))
          (letter_refs inp.meta_xml) r.1)) ++
      ((inp.marginalien_xml.findall "marginal").flatMap
        (marginal_check
          (merge_page_line_maps (build_letter_page_line_map_brief inp.briefe_xml)
            (build_letter_page_line_map_trad inp.traditions_xml))
          (letter_refs inp.meta_xml) inp.marginalien_file) ++
      ((inp.meta_xml.findall "link").flatMap
        (link_check
          (inp.register_trees.foldl
            (fun st r => gather_commentaries_and_subsections r.2 r.1 st)
            ⟨[], [], []⟩).global_kommentar_ids
          (inp.register_trees.foldl
            (fun st r => gather_commentaries_and_subsections r.2 r.1 st)
            ⟨[], [], []⟩).global_subsection_ids inp.meta_file) ++
      ((inp.references_xml.findall "link").flatMap
        (link_check
          (inp.register_trees.foldl
            (fun st r => gather_commentaries_and_subsections r.2 r.1 st)
            ⟨[], [], []⟩).global_kommentar_ids
          (inp.register_trees.foldl
            (fun st r => gather_commentaries_and_subsections r.2 r.1 st)
            ⟨[], [], []⟩).global_subsection_ids inp.references_file) ++
      ((inp.briefe_xml.findall "link").flatMap
        (link_check
          (inp.register_trees.foldl
            (fun st r => gather_commentaries_and_subsections r.2 r.1 st)
            ⟨[], [], []⟩).global_kommentar_ids
          (inp.register_trees.foldl
            (fun st r => gather_commentaries_and_subsections r.2 r.1 st)
            ⟨[], [], []⟩).global_subsection_ids inp.briefe_file) ++
      ((inp.edits_xml.findall "link").flatMap
        (link_check
          (inp.register_trees.foldl
            (fun st r => gather_commentaries_and_subsections r.2 r.1 st)
            ⟨[], [], []⟩).global_kommentar_ids
          (inp.register_trees.foldl
            (fun st r => gather_commentaries_and_subsections r.2 r.1 st)
            ⟨[], [], []⟩).global_subsection_ids inp.edits_file) ++
      ((inp.traditions_xml.findall "link").flatMap
        (link_check
          (inp.register_trees.foldl
            (fun st r => gather_commentaries_and_subsections r.2 r.1 st)
            ⟨[], [], []⟩).global_kommentar_ids
          (inp.register_trees.foldl
            (fun st r => gather_commentaries_and_subsections r.2 r.1 st)
            ⟨[], [], []⟩).global_subsection_ids inp.traditions_file) ++
      ((inp.marginalien_xml.findall "link").flatMap
        (link_check
          (inp.register_trees.foldl
            (fun st r => gather_commentaries_and_subsections r.2 r.1 st)
            ⟨[], [], []⟩).global_kommentar_ids
          (inp.register_trees.foldl
            (fun st r => gather_commentaries_and_subsections r.2 r.1 st)
            ⟨[], [], []⟩).global_subsection_ids inp.marginalien_file) ++
      inp.register_trees.flatMap (fun r => (r.2.findall "link").flatMap
        (link_check
          (inp.register_trees.foldl
            (fun st r => gather_commentaries_and_subsections r.2 r.1 st)
            ⟨[], [], []⟩).global_kommentar_ids
          (inp.register_trees.foldl
            (fun st r => gather_commentaries_and_subsections r.2 r.1 st)
            ⟨[], [], []⟩).global_subsection_ids r.1)))))))))))))))) ∧
    (∀ inp' : ValidatorInput, inp = inp' →
      validate_references inp = validate_references inp') := by
  constructor
  · simp only [validate_references, validate_intlinks, validate_links_for_commentary,
      foldl_append_flatMap, List.append_assoc]
  · intro inp' h
    rw [h]

theorem C8_deterministic_traversal_order_witness :
    (validate_references
      { meta_file := "meta.xml", references_file := "references.xml",
        briefe_file := "briefe.xml", edits_file := "edits.xml",
        traditions_file := "traditions.xml", marginalien_file := "marginal.xml",
        meta_xml := .elem "meta" [] 1 [.elem "letterDesc" [("letter", "L1")] 2 []],
        references_xml := .elem "refs" [] 1 [.elem "personDef" [("index", "P1")] 2 []],
        briefe_xml := .elem "briefe" [] 1
          [.elem "document" [] 2 [.elem "letterText" [("letter", "L1")] 3
            [.elem "page" [("index", "3")] 4 [], .elem "line" [("index", "5")] 5 []]]],
        edits_xml := .elem "edits" [] 1 [],
        traditions_xml := .elem "traditions" [] 1
          [.elem "intlink" [("letter", "L1"), ("page", "3"), ("line", "9")] 2 []],
        marginalien_xml := .elem "marginalien" [] 1 [],
        register_trees := [] } =
    validate_references
      { meta_file := "meta.xml", references_file := "references.xml",
        briefe_file := "briefe.xml", edits_file := "edits.xml",
        traditions_file := "traditions.xml", marginalien_file := "marginal.xml",
        meta_xml := .elem "meta" [] 1 [.elem "letterDesc" [("letter", "L1")] 2 []],
        references_xml := .elem "refs" [] 1 [.elem "personDef" [("index", "P1")] 2 []],
        briefe_xml := .elem "briefe" [] 1
          [.elem "document" [] 2 [.elem "letterText" [("letter", "L1")] 3
            [.elem "page" [("index", "3")] 4 [], .elem "line" [("index", "5")] 5 []]]],
        edits_xml := .elem "edits" [] 1 [],
        traditions_xml := .elem "traditions" [] 1
          [.elem "intlink" [("letter", "L1"), ("page", "3"), ("line", "9")] 2 []],
        marginalien_xml := .elem "marginalien" [] 1 [],
        register_trees := [] }) ∧
    (validate_references
      { meta_file := "meta.xml", references_file := "references.xml",
        briefe_file := "briefe.xml", edits_file := "edits.xml",
        traditions_file := "traditions.xml", marginalien_file := "marginal.xml",
        meta_xml := .elem "meta" [] 1 [.elem "letterDesc" [("letter", "L1")] 2 []],
        references_xml := .elem "refs" [] 1 [.elem "personDef" [("index", "P1")] 2 []],
        briefe_xml := .elem "briefe" [] 1
          [.elem "document" [] 2 [.elem "letterText" [("letter", "L1")] 3
            [.elem "page" [("index", "3")] 4 [], .elem "line" [("index", "5")] 5 []]]],
        edits_xml := .elem "edits" [] 1 [],
        traditions_xml := .elem "traditions" [] 1
          [.elem "intlink" [("letter", "L1"), ("page", "3"), ("line", "9")] 2 []],
        marginalien_xml := .elem "marginalien" [] 1 [],
        register_trees := [] } =
      [⟨"traditions.xml", some 2, .invalidIntlinkLine "9" "L1" "3"⟩]) := by
  have h := C8_deterministic_traversal_order
    { meta_file := "meta.xml", references_file := "references.xml",
      briefe_file := "briefe.xml", edits_file := "edits.xml",
      traditions_file := "traditions.xml", marginalien_file := "marginal.xml",
      meta_xml := .elem "meta" [] 1 [.elem "letterDesc" [("letter", "L1")] 2 []],
      references_xml := .elem "refs" [] 1 [.elem "personDef" [("index", "P1")] 2 []],
      briefe_xml := .elem "briefe" [] 1
        [.elem "document" [] 2 [.elem "letterText" [("letter", "L1")] 3
          [.elem "page" [("index", "3")] 4 [], .elem "line" [("index", "5")] 5 []]]],
      edits_xml := .elem "edits" [] 1 [],
      traditions_xml := .elem "traditions" [] 1
        [.elem "intlink" [("letter", "L1"), ("page", "3"), ("line", "9")] 2 []],
      marginalien_xml := .elem "marginalien" [] 1 [],
      register_trees := [] }
  exact ⟨h.2 _ rfl, h.1.trans (by decide)⟩

end LintVerweise
